import Mathlib

/-!  Shallow embedding of the ai-dubber job pipeline (src/app/dubbing_service.py,
src/app/models.py).  External effects (subprocess exits, OpenAI calls, the
clock, tempfile names, store faults) are parameters collected in an
environment record; the database is a record store of lists; the filesystem
is a list of paths; raised Python exceptions are modelled with Except and
the try/except blocks of the source as matches on it. -/

namespace Dubbing

/-- Job status enum (models.py, DubbingStatus). -/
inductive DubbingStatus where
  | pending
  | processing
  | completed
  | failed
deriving DecidableEq, Repr

/-- Observable events of one pipeline run: a committed status write, or the
invocation of stage k (1 = extract audio, 2 = transcribe, 3 = translate,
4 = synthesize speech, 5 = mux output). -/
inductive Event where
  | statusWrite (s : DubbingStatus)
  | stageStart (k : Nat)
deriving DecidableEq, Repr

/-- Language row (models.py, Language).  The code field holds the
LanguageCode value string such as "en" or "es". -/
structure Language where
  id : Nat
  code : String
  name : String
  is_active : Bool
deriving DecidableEq, Repr

/-- Video row (models.py, Video).  Duration is in hundredths of a second
when present. -/
structure Video where
  id : Nat
  filename : String
  original_filename : String
  file_path : String
  file_size : Nat
  duration : Option Int
  mime_type : String
  source_language_id : Nat
  uploaded_at : Nat
deriving DecidableEq, Repr

/-- Dubbing job row (models.py, DubbingJob). -/
structure DubbingJob where
  id : Nat
  source_video_id : Nat
  target_language_id : Nat
  status : DubbingStatus
  output_filename : Option String
  output_file_path : Option String
  output_file_size : Option Nat
  processing_started_at : Option Nat
  processing_completed_at : Option Nat
  error_message : Option String
  created_at : Nat
  updated_at : Nat
deriving DecidableEq, Repr

/-- The record store (the database tables). -/
structure Store where
  jobs : List DubbingJob
  videos : List Video
  languages : List Language
deriving DecidableEq, Repr

/-- One run's world: the store, the filesystem (paths present on disk) and
the trace of observable events so far. -/
structure World where
  store : Store
  disk : List String
  events : List Event
deriving DecidableEq, Repr

/-- Environment of one run: behaviour of every external collaborator.
A fault field set to some msg (or true) means the corresponding Python
call raises an exception; adapter API fields give the value the external
call returns, with none meaning the call raised. -/
structure Env where
  startWriteFault : Option String
  syncGetFault : Option String
  errorWriteRaises : Bool
  successWriteRaises : Bool
  extractTmp : String
  extractFfmpeg : Option Nat
  transcribeApi : Option String
  translateApi : Option (Option String)
  synthTmp : String
  synthApiRaises : Bool
  muxFfmpeg : Option Nat
  muxTimestamp : String
  statSize : Nat
  now : Nat
deriving Repr

/-- Python truthiness filter on an optional string: None and the empty
string are falsy (the source guards every stage with "if not x"). -/
def truthy : Option String → Option String
  | none => none
  | some s => if s = "" then none else some s

/-- Message of the AttributeError raised when job.source_video is None and
its file_path attribute is read. -/
def noneTypeFilePathMsg : String := "NoneType object has no attribute file_path"

/-- Message of the AttributeError raised when job.target_language is None
and its code attribute is read. -/
def noneTypeCodeMsg : String := "NoneType object has no attribute code"

/-- Splits a reversed character list at the first occurrence of c, which is
the last occurrence in the unreversed list: input l with l = x ++ c :: y
and c not in x yields some (x, y). -/
def revSplitLast (c : Char) : List Char → Option (List Char × List Char)
  | [] => none
  | a :: rest =>
    if a = c then some ([], rest)
    else (revSplitLast c rest).map (fun q => (a :: q.1, q.2))

/-- Final path component, as pathlib Path(p).name. -/
def pathName (p : String) : String :=
  match revSplitLast '/' p.toList.reverse with
  | some q => String.mk q.1.reverse
  | none => p

/-- Stem of the final component, as pathlib Path(p).stem: the name up to its
last dot, provided that dot is neither the first nor the last character. -/
def pathStem (p : String) : String :=
  let name := pathName p
  match revSplitLast '.' name.toList.reverse with
  | some q => if q.2 = [] ∨ q.1 = [] then name else String.mk q.2.reverse
  | none => name

/-- Suffix of the final component, as pathlib Path(p).suffix. -/
def pathSuffix (p : String) : String :=
  let name := pathName p
  match revSplitLast '.' name.toList.reverse with
  | some q => if q.2 = [] ∨ q.1 = [] then "" else String.mk ('.' :: q.1.reverse)
  | none => ""

/-- session.get(DubbingJob, job_id): first job row with the given id. -/
def lookupJob (jobs : List DubbingJob) (i : Nat) : Option DubbingJob :=
  jobs.find? (fun j => j.id == i)

/-- Relationship load job.source_video: row resolution of the foreign key,
None when it dangles. -/
def lookupVideo (videos : List Video) (i : Nat) : Option Video :=
  videos.find? (fun v => v.id == i)

/-- Relationship load job.target_language. -/
def lookupLanguage (languages : List Language) (i : Nat) : Option Language :=
  languages.find? (fun l => l.id == i)

/-- Committing a mutated job row: every row with the same id is replaced. -/
def writeJob (jobs : List DubbingJob) (j : DubbingJob) : List DubbingJob :=
  jobs.map (fun x => if x.id == j.id then j else x)

/-- The row created by create_dubbing_job (dubbing_service.py lines
102-111): status PENDING, every optional field absent. -/
def newJob (source_video_id target_language_id : Nat) (newId now : Nat) : DubbingJob :=
  { id := newId
    source_video_id := source_video_id
    target_language_id := target_language_id
    status := DubbingStatus.pending
    output_filename := none
    output_file_path := none
    output_file_size := none
    processing_started_at := none
    processing_completed_at := none
    error_message := none
    created_at := now
    updated_at := now }

/-- The Processing start write (process_dubbing_job lines 150-152): status
and start timestamp only. -/
def markProcessing (j : DubbingJob) (now : Nat) : DubbingJob :=
  { j with status := DubbingStatus.processing, processing_started_at := some now }

/-- The success write payload (_update_job_success lines 377-382). -/
def markSuccess (j : DubbingJob) (outputPath : String) (size : Nat) (now : Nat) : DubbingJob :=
  { j with status := DubbingStatus.completed
           output_filename := some (pathName outputPath)
           output_file_path := some outputPath
           output_file_size := some size
           processing_completed_at := some now
           updated_at := now }

/-- The error write payload (_update_job_error lines 393-396). -/
def markFailed (j : DubbingJob) (msg : String) (now : Nat) : DubbingJob :=
  { j with status := DubbingStatus.failed
           error_message := some msg
           processing_completed_at := some now
           updated_at := now }

/-- The record invariant of the spec: output fields populated iff status is
Completed, error message populated iff status is Failed. -/
def jobInv (j : DubbingJob) : Prop :=
  (j.output_filename.isSome ↔ j.status = DubbingStatus.completed) ∧
  (j.output_file_path.isSome ↔ j.status = DubbingStatus.completed) ∧
  (j.output_file_size.isSome ↔ j.status = DubbingStatus.completed) ∧
  (j.error_message.isSome ↔ j.status = DubbingStatus.failed)

instance (j : DubbingJob) : Decidable (jobInv j) := by
  unfold jobInv
  infer_instance

/-- Appends one observable event to the trace. -/
def pushEvent (e : Event) (w : World) : World :=
  { w with events := w.events ++ [e] }

/-- Creation of a file on disk (tempfile / ffmpeg output); creating an
already-present path leaves the disk unchanged. -/
def createFileW (p : String) (w : World) : World :=
  if p ∈ w.disk then w else { w with disk := p :: w.disk }

/-- The cleanup step of the finally block (lines 214-215): unlink the
intermediate audio file if it exists. -/
def cleanupW (p : String) (w : World) : World :=
  if p ∈ w.disk then { w with disk := w.disk.erase p } else w

/-- get_languages (lines 37-41): all active languages. -/
def get_languages (langs : List Language) : List Language :=
  langs.filter (fun l => l.is_active)

/-- get_target_languages (lines 43-47): active languages whose id differs
from the source language id. -/
def get_target_languages (langs : List Language) (source_language_id : Nat) : List Language :=
  langs.filter (fun l => l.is_active && l.id != source_language_id)

/-- save_video (lines 49-82): the created Video row.  The stored filename
is derived from the upload timestamp and the original extension; the file
is saved under the uploads directory. -/
def save_video (uploadTimestamp : String) (file_content_size : Nat)
    (original_filename : String) (mime_type : String)
    (source_language_id : Nat) (newId now : Nat) (duration : Option Int) : Video :=
  let filename := "video_" ++ uploadTimestamp ++ pathSuffix original_filename
  { id := newId
    filename := filename
    original_filename := original_filename
    file_path := "uploads/" ++ filename
    file_size := file_content_size
    duration := duration
    mime_type := mime_type
    source_language_id := source_language_id
    uploaded_at := now }

/-- create_dubbing_job (lines 102-111): adds a fresh PENDING job row; the
two ids are stored without any existence check. -/
def create_dubbing_job (source_video_id target_language_id : Nat)
    (newId now : Nat) (st : Store) : DubbingJob × Store :=
  let job := newJob source_video_id target_language_id newId now
  (job, { st with jobs := st.jobs ++ [job] })

/-- get_output_file_path (lines 401-408): a path only for an existing
COMPLETED job with a truthy recorded path that is present on disk at call
time. -/
def get_output_file_path (st : Store) (disk : List String) (jobId : Nat) : Option String :=
  match lookupJob st.jobs jobId with
  | none => none
  | some job =>
    if job.status = DubbingStatus.completed then
      match truthy job.output_file_path with
      | none => none
      | some p => if p ∈ disk then some p else none
    else none

/-- _update_job_error (lines 387-399): write FAILED with the message; its
own try/except absorbs store faults, and a missing row is left alone. -/
def update_job_error (env : Env) (jobId : Nat) (msg : String) (w : World) : World :=
  if env.errorWriteRaises then w
  else
    match lookupJob w.store.jobs jobId with
    | none => w
    | some job =>
      pushEvent (Event.statusWrite DubbingStatus.failed)
        { w with store := { w.store with jobs := writeJob w.store.jobs (markFailed job msg env.now) } }

/-- _update_job_success (lines 369-385): write COMPLETED with the output
fields; the recorded size is the stat size when the file exists, else 0. -/
def update_job_success (env : Env) (jobId : Nat) (outputPath : String) (w : World) : World :=
  if env.successWriteRaises then w
  else
    let size := if outputPath ∈ w.disk then env.statSize else 0
    match lookupJob w.store.jobs jobId with
    | none => w
    | some job =>
      pushEvent (Event.statusWrite DubbingStatus.completed)
        { w with store := { w.store with jobs := writeJob w.store.jobs (markSuccess job outputPath size env.now) } }

/-- _extract_audio (lines 227-261): NamedTemporaryFile creates the .wav
path on disk first (delete=False), then ffmpeg runs; the path is returned
only on exit code 0 with the file present, and the temporary file is never
removed by this function. -/
def extract_audio (env : Env) (videoPath : String) (w : World) : Option String × World :=
  let w := createFileW env.extractTmp w
  match env.extractFfmpeg with
  | none => (none, w)
  | some rc =>
    if rc = 0 ∧ env.extractTmp ∈ w.disk then (some env.extractTmp, w) else (none, w)

/-- _transcribe_audio (lines 263-273): opening a missing file raises and is
absorbed to None; otherwise the result is whatever the API returned, None
when the API call raised. -/
def transcribe_audio (env : Env) (audioPath : String) (disk : List String) : Option String :=
  if audioPath ∈ disk then env.transcribeApi else none

/-- _translate_text (lines 275-303): the API response content, which can
itself be null; None when the call raised. -/
def translate_text (env : Env) (text : String) (code : String) : Option String :=
  match env.translateApi with
  | none => none
  | some content => content

/-- _generate_ai_speech (lines 305-325): NamedTemporaryFile creates the
.mp3 path first, then the API streams into it; on an API fault the path
is leaked and None returned. -/
def generate_ai_speech (env : Env) (text : String) (code : String) (w : World) : Option String × World :=
  let w := createFileW env.synthTmp w
  if env.synthApiRaises then (none, w)
  else if env.synthTmp ∈ w.disk then (some env.synthTmp, w) else (none, w)

/-- Output filename rule of _replace_video_audio (lines 330-333): stem of
the stored video path, target language code value, generation timestamp. -/
def output_filename (videoPath : String) (code : String) (timestamp : String) : String :=
  pathStem videoPath ++ "_dubbed_" ++ code ++ "_" ++ timestamp ++ ".mp4"

/-- _replace_video_audio (lines 327-367): ffmpeg writes the output under
the outputs directory; the path is returned on exit code 0 with the file
present. -/
def replace_video_audio (env : Env) (videoPath : String) (audioPath : String)
    (code : String) (w : World) : Option String × World :=
  let outPath := "outputs/" ++ output_filename videoPath code env.muxTimestamp
  match env.muxFfmpeg with
  | none => (none, w)
  | some rc =>
    if rc = 0 then
      let w := createFileW outPath w
      if outPath ∈ w.disk then (some outPath, w) else (none, w)
    else (none, w)

/-- Stages 2-5 of _process_dubbing_sync (lines 183-210), the body of the
inner try: each absent stage result writes FAILED with the stage label and
returns False; reading code on a dangling target language raises. -/
def inner_stages (env : Env) (jobId : Nat) (videoPath : String)
    (lang : Option Language) (audioPath : String) (w : World) :
    Except String Bool × World :=
  let w := pushEvent (Event.stageStart 2) w
  match truthy (transcribe_audio env audioPath w.disk) with
  | none => (Except.ok false, update_job_error env jobId "Failed to transcribe audio" w)
  | some transcript =>
    match lang with
    | none => (Except.error noneTypeCodeMsg, w)
    | some l =>
      let w := pushEvent (Event.stageStart 3) w
      match truthy (translate_text env transcript l.code) with
      | none => (Except.ok false, update_job_error env jobId "Failed to translate text" w)
      | some translated =>
        let w := pushEvent (Event.stageStart 4) w
        let s := generate_ai_speech env translated l.code w
        match truthy s.1 with
        | none => (Except.ok false, update_job_error env jobId "Failed to generate AI speech" s.2)
        | some aiPath =>
          let w := pushEvent (Event.stageStart 5) s.2
          let m := replace_video_audio env videoPath aiPath l.code w
          match truthy m.1 with
          | none => (Except.ok false, update_job_error env jobId "Failed to replace video audio" m.2)
          | some outPath =>
            (Except.ok true, update_job_success env jobId outPath m.2)

/-- The try body of _process_dubbing_sync (lines 167-220): fetch the job,
resolve its video (reading file_path on a dangling video raises), run the
extraction stage, then the inner stages under the finally cleanup. -/
def process_dubbing_sync_try (env : Env) (jobId : Nat) (w : World) :
    Except String Bool × World :=
  match env.syncGetFault with
  | some msg => (Except.error msg, w)
  | none =>
    match lookupJob w.store.jobs jobId with
    | none => (Except.ok false, w)
    | some job =>
      match lookupVideo w.store.videos job.source_video_id with
      | none => (Except.error noneTypeFilePathMsg, w)
      | some v =>
        let lang := lookupLanguage w.store.languages job.target_language_id
        let w := pushEvent (Event.stageStart 1) w
        let p := extract_audio env v.file_path w
        match truthy p.1 with
        | none => (Except.ok false, update_job_error env jobId "Failed to extract audio from video" p.2)
        | some audioPath =>
          let q := inner_stages env jobId v.file_path lang audioPath p.2
          (q.1, cleanupW audioPath q.2)

/-- _process_dubbing_sync (lines 165-225): the catch-all except turns any
raised fault into an error write and False. -/
def process_dubbing_sync (env : Env) (jobId : Nat) (w : World) : Bool × World :=
  match process_dubbing_sync_try env jobId w with
  | (Except.ok b, w') => (b, w')
  | (Except.error e, w') => (false, update_job_error env jobId e w')

/-- The world right after the Processing start write of process_dubbing_job
(lines 150-152): the job row is committed with status PROCESSING and the
start timestamp. -/
def startWorld (env : Env) (job : DubbingJob) (w₀ : World) : World :=
  pushEvent (Event.statusWrite DubbingStatus.processing)
    { w₀ with store := { w₀.store with jobs := writeJob w₀.store.jobs (markProcessing job env.now) } }

/-- The try body of process_dubbing_job (lines 142-158): fetch the job,
commit the Processing write, then run the blocking pipeline body. -/
def process_dubbing_job_try (env : Env) (jobId : Nat) (w₀ : World) :
    Except String Bool × World :=
  match env.startWriteFault with
  | some msg => (Except.error msg, w₀)
  | none =>
    match lookupJob w₀.store.jobs jobId with
    | none => (Except.ok false, w₀)
    | some job =>
      let r := process_dubbing_sync env jobId (startWorld env job w₀)
      (Except.ok r.1, r.2)

/-- process_dubbing_job (lines 140-163): the catch-all except turns any
raised fault into an error write and False, so the caller-visible outcome
is Except-typed but in fact always ok. -/
def process_dubbing_job (env : Env) (jobId : Nat) (w₀ : World) :
    Except String Bool × World :=
  match process_dubbing_job_try env jobId w₀ with
  | (Except.ok b, w) => (Except.ok b, w)
  | (Except.error e, w) => (Except.ok false, update_job_error env jobId e w)

/-! Structural lemmas about the world operations. -/

@[simp] theorem pushEvent_store (e : Event) (w : World) : (pushEvent e w).store = w.store := rfl

@[simp] theorem pushEvent_disk (e : Event) (w : World) : (pushEvent e w).disk = w.disk := rfl

@[simp] theorem pushEvent_events (e : Event) (w : World) :
    (pushEvent e w).events = w.events ++ [e] := rfl

@[simp] theorem createFileW_store (p : String) (w : World) : (createFileW p w).store = w.store := by
  unfold createFileW; split <;> rfl

@[simp] theorem createFileW_events (p : String) (w : World) :
    (createFileW p w).events = w.events := by
  unfold createFileW; split <;> rfl

@[simp] theorem cleanupW_store (p : String) (w : World) : (cleanupW p w).store = w.store := by
  unfold cleanupW; split <;> rfl

@[simp] theorem cleanupW_events (p : String) (w : World) : (cleanupW p w).events = w.events := by
  unfold cleanupW; split <;> rfl

theorem mem_createFileW_self (p : String) (w : World) : p ∈ (createFileW p w).disk := by
  unfold createFileW; split
  · assumption
  · exact List.mem_cons_self p w.disk

theorem mem_createFileW_of_mem (q p : String) (w : World) (h : q ∈ w.disk) :
    q ∈ (createFileW p w).disk := by
  unfold createFileW; split
  · exact h
  · exact List.mem_cons_of_mem p h

@[simp] theorem update_job_error_disk (env : Env) (i : Nat) (m : String) (w : World) :
    (update_job_error env i m w).disk = w.disk := by
  unfold update_job_error
  split
  · rfl
  · cases lookupJob w.store.jobs i <;> rfl

@[simp] theorem update_job_error_videos (env : Env) (i : Nat) (m : String) (w : World) :
    (update_job_error env i m w).store.videos = w.store.videos := by
  unfold update_job_error
  split
  · rfl
  · cases lookupJob w.store.jobs i <;> rfl

@[simp] theorem update_job_error_languages (env : Env) (i : Nat) (m : String) (w : World) :
    (update_job_error env i m w).store.languages = w.store.languages := by
  unfold update_job_error
  split
  · rfl
  · cases lookupJob w.store.jobs i <;> rfl

@[simp] theorem update_job_success_disk (env : Env) (i : Nat) (p : String) (w : World) :
    (update_job_success env i p w).disk = w.disk := by
  unfold update_job_success
  split
  · rfl
  · cases lookupJob w.store.jobs i <;> rfl

@[simp] theorem startWorld_disk (env : Env) (job : DubbingJob) (w : World) :
    (startWorld env job w).disk = w.disk := rfl

@[simp] theorem startWorld_events (env : Env) (job : DubbingJob) (w : World) :
    (startWorld env job w).events = w.events ++ [Event.statusWrite DubbingStatus.processing] := rfl

@[simp] theorem startWorld_videos (env : Env) (job : DubbingJob) (w : World) :
    (startWorld env job w).store.videos = w.store.videos := rfl

@[simp] theorem startWorld_languages (env : Env) (job : DubbingJob) (w : World) :
    (startWorld env job w).store.languages = w.store.languages := rfl

theorem startWorld_jobs (env : Env) (job : DubbingJob) (w : World) :
    (startWorld env job w).store.jobs = writeJob w.store.jobs (markProcessing job env.now) := rfl

@[simp] theorem markProcessing_id (j : DubbingJob) (n : Nat) : (markProcessing j n).id = j.id := rfl

@[simp] theorem markProcessing_source (j : DubbingJob) (n : Nat) :
    (markProcessing j n).source_video_id = j.source_video_id := rfl

@[simp] theorem markProcessing_target (j : DubbingJob) (n : Nat) :
    (markProcessing j n).target_language_id = j.target_language_id := rfl

@[simp] theorem markFailed_id (j : DubbingJob) (m : String) (n : Nat) :
    (markFailed j m n).id = j.id := rfl

@[simp] theorem markSuccess_id (j : DubbingJob) (p : String) (s n : Nat) :
    (markSuccess j p s n).id = j.id := rfl

/-! Lookup and write lemmas for the job table. -/

theorem lookupJob_id {jobs : List DubbingJob} {i : Nat} {j : DubbingJob}
    (h : lookupJob jobs i = some j) : j.id = i := by
  have := List.find?_some h
  simpa using this

theorem lookupJob_writeJob {jobs : List DubbingJob} {i : Nat} (j' : DubbingJob)
    (h : (lookupJob jobs i).isSome) (hid : j'.id = i) :
    lookupJob (writeJob jobs j') i = some j' := by
  induction jobs with
  | nil => simp [lookupJob] at h
  | cons a tl ih =>
    by_cases ha : a.id = i
    · have h1 : (if a.id == j'.id then j' else a) = j' := by
        rw [if_pos]
        simp [ha, hid]
      show ((a :: tl).map fun x => if x.id == j'.id then j' else x).find? (fun j => j.id == i) = some j'
      rw [List.map_cons, h1, List.find?_cons_of_pos _ (by simp [hid])]
    · have h2 : (if a.id == j'.id then j' else a) = a := by
        rw [if_neg]
        intro hx
        exact ha (by simpa [hid] using hx)
      have h3 : (lookupJob tl i).isSome := by
        unfold lookupJob at h
        rwa [List.find?_cons_of_neg tl (by simp [ha])] at h
      show ((a :: tl).map fun x => if x.id == j'.id then j' else x).find? (fun j => j.id == i) = some j'
      rw [List.map_cons, h2, List.find?_cons_of_neg _ (by simp [ha])]
      exact ih h3

theorem lookupJob_writeJob_of_found {jobs : List DubbingJob} {i : Nat} {j : DubbingJob}
    (j' : DubbingJob) (h : lookupJob jobs i = some j) (hid : j'.id = j.id) :
    lookupJob (writeJob jobs j') i = some j' :=
  lookupJob_writeJob j' (by simp [h]) (by rw [hid, lookupJob_id h])

/-- After the Processing start write the job row is found in its marked
form. -/
theorem lookupJob_startWorld {env : Env} {w : World} {jobId : Nat} {job : DubbingJob}
    (hj : lookupJob w.store.jobs jobId = some job) :
    lookupJob (startWorld env job w).store.jobs jobId = some (markProcessing job env.now) := by
  rw [startWorld_jobs]
  exact lookupJob_writeJob_of_found _ hj (markProcessing_id job env.now)

/-! Reduction lemmas for the pipeline run. -/

/-- With a clean start write and an existing job, the run is the sync body
on the world after the Processing write. -/
theorem run_reduce {env : Env} {jobId : Nat} {w₀ : World} {job : DubbingJob}
    (hS : env.startWriteFault = none)
    (hj : lookupJob w₀.store.jobs jobId = some job) :
    process_dubbing_job env jobId w₀ =
      (Except.ok (process_dubbing_sync env jobId (startWorld env job w₀)).1,
       (process_dubbing_sync env jobId (startWorld env job w₀)).2) := by
  unfold process_dubbing_job process_dubbing_job_try
  rw [hS, hj]

/-- The adapter result of the extraction stage: the temporary file is
created unconditionally, and the path is returned exactly when ffmpeg
exits 0. -/
theorem extract_audio_eq (env : Env) (videoPath : String) (w : World) :
    extract_audio env videoPath w =
      ((if env.extractFfmpeg = some 0 then some env.extractTmp else none),
       createFileW env.extractTmp w) := by
  unfold extract_audio
  cases hf : env.extractFfmpeg with
  | none => simp
  | some rc =>
    have hmem : env.extractTmp ∈ (createFileW env.extractTmp w).disk :=
      mem_createFileW_self env.extractTmp w
    by_cases h0 : rc = 0 <;> simp [h0, hmem]

/-- The adapter result of the speech synthesis stage. -/
theorem generate_ai_speech_eq (env : Env) (text code : String) (w : World) :
    generate_ai_speech env text code w =
      ((if env.synthApiRaises then none else some env.synthTmp),
       createFileW env.synthTmp w) := by
  unfold generate_ai_speech
  have hmem : env.synthTmp ∈ (createFileW env.synthTmp w).disk :=
    mem_createFileW_self env.synthTmp w
  by_cases h : env.synthApiRaises <;> simp [h, hmem]

/-- The mux stage when ffmpeg succeeds. -/
theorem replace_video_audio_ok {env : Env} (videoPath audioPath code : String) (w : World)
    (h : env.muxFfmpeg = some 0) :
    replace_video_audio env videoPath audioPath code w =
      (some ("outputs/" ++ output_filename videoPath code env.muxTimestamp),
       createFileW ("outputs/" ++ output_filename videoPath code env.muxTimestamp) w) := by
  unfold replace_video_audio
  rw [h]
  simp [mem_createFileW_self]

/-- The mux stage when ffmpeg fails or raises. -/
theorem replace_video_audio_fail {env : Env} (videoPath audioPath code : String) (w : World)
    (h : env.muxFfmpeg ≠ some 0) :
    replace_video_audio env videoPath audioPath code w = (none, w) := by
  unfold replace_video_audio
  cases hf : env.muxFfmpeg with
  | none => simp
  | some rc =>
    have : ¬rc = 0 := fun h0 => h (by rw [hf, h0])
    simp [this]

/-- The transcription stage once the extracted audio file is on disk. -/
theorem transcribe_audio_mem {env : Env} {audioPath : String} {disk : List String}
    (h : audioPath ∈ disk) :
    transcribe_audio env audioPath disk = env.transcribeApi := by
  simp [transcribe_audio, h]

/-- The error write on a present row: the row becomes FAILED carrying the
message, and one failed status write is appended to the trace. -/
theorem update_job_error_found {env : Env} {jobId : Nat} {w : World} {j : DubbingJob}
    (hE : env.errorWriteRaises = false)
    (hjw : lookupJob w.store.jobs jobId = some j) :
    update_job_error env jobId msg w =
      pushEvent (Event.statusWrite DubbingStatus.failed)
        { w with store := { w.store with jobs := writeJob w.store.jobs (markFailed j msg env.now) } } := by
  unfold update_job_error
  rw [hE, hjw]
  simp

/-- Conclusions of any branch that ends in an error write: the row is found
FAILED with exactly the written message. -/
theorem final_failed {env : Env} {jobId : Nat} {w : World} {j : DubbingJob} (msg : String)
    (hE : env.errorWriteRaises = false)
    (hjw : lookupJob w.store.jobs jobId = some j) :
    ∃ j', lookupJob (update_job_error env jobId msg w).store.jobs jobId = some j' ∧
      j'.status = DubbingStatus.failed ∧ j'.error_message = some msg ∧
      (update_job_error env jobId msg w).events = w.events ++ [Event.statusWrite DubbingStatus.failed] := by
  rw [update_job_error_found hE hjw]
  refine ⟨markFailed j msg env.now, ?_, rfl, rfl, rfl⟩
  simp only [pushEvent_store]
  exact lookupJob_writeJob_of_found _ hjw (markFailed_id j msg env.now)

@[simp] theorem truthy_none : truthy none = none := rfl

theorem truthy_some (s : String) : truthy (some s) = if s = "" then none else some s := rfl

/-- Sync body when the extraction stage yields a falsy result. -/
theorem sync_extract_fail {env : Env} {jobId : Nat} {w : World} {job : DubbingJob} {v : Video}
    (hG : env.syncGetFault = none)
    (hj : lookupJob w.store.jobs jobId = some job)
    (hv : lookupVideo w.store.videos job.source_video_id = some v)
    (htr : truthy (extract_audio env v.file_path (pushEvent (Event.stageStart 1) w)).1 = none) :
    process_dubbing_sync env jobId w =
      (false, update_job_error env jobId "Failed to extract audio from video"
        (extract_audio env v.file_path (pushEvent (Event.stageStart 1) w)).2) := by
  unfold process_dubbing_sync process_dubbing_sync_try
  simp only [hG, hj, hv, htr]

/-- Sync body when extraction yields a truthy path and the inner stages
return a value: the finally cleanup runs on the inner world. -/
theorem sync_inner_ok {env : Env} {jobId : Nat} {w : World} {job : DubbingJob} {v : Video}
    {ap : String} {b : Bool}
    (hG : env.syncGetFault = none)
    (hj : lookupJob w.store.jobs jobId = some job)
    (hv : lookupVideo w.store.videos job.source_video_id = some v)
    (htr : truthy (extract_audio env v.file_path (pushEvent (Event.stageStart 1) w)).1 = some ap)
    (hq : (inner_stages env jobId v.file_path
        (lookupLanguage w.store.languages job.target_language_id) ap
        (extract_audio env v.file_path (pushEvent (Event.stageStart 1) w)).2).1 = Except.ok b) :
    process_dubbing_sync env jobId w =
      (b, cleanupW ap (inner_stages env jobId v.file_path
        (lookupLanguage w.store.languages job.target_language_id) ap
        (extract_audio env v.file_path (pushEvent (Event.stageStart 1) w)).2).2) := by
  unfold process_dubbing_sync process_dubbing_sync_try
  simp only [hG, hj, hv, htr, hq]

/-- Sync body when extraction yields a truthy path and the inner stages
raise: the finally cleanup runs, then the catch-all writes the error. -/
theorem sync_inner_error {env : Env} {jobId : Nat} {w : World} {job : DubbingJob} {v : Video}
    {ap : String} {e : String}
    (hG : env.syncGetFault = none)
    (hj : lookupJob w.store.jobs jobId = some job)
    (hv : lookupVideo w.store.videos job.source_video_id = some v)
    (htr : truthy (extract_audio env v.file_path (pushEvent (Event.stageStart 1) w)).1 = some ap)
    (hq : (inner_stages env jobId v.file_path
        (lookupLanguage w.store.languages job.target_language_id) ap
        (extract_audio env v.file_path (pushEvent (Event.stageStart 1) w)).2).1 = Except.error e) :
    process_dubbing_sync env jobId w =
      (false, update_job_error env jobId e (cleanupW ap (inner_stages env jobId v.file_path
        (lookupLanguage w.store.languages job.target_language_id) ap
        (extract_audio env v.file_path (pushEvent (Event.stageStart 1) w)).2).2)) := by
  unfold process_dubbing_sync process_dubbing_sync_try
  simp only [hG, hj, hv, htr, hq]

/-- Sync body on a dangling video reference: reading file_path raises, so
the catch-all writes the AttributeError text. -/
theorem sync_video_none {env : Env} {jobId : Nat} {w : World} {job : DubbingJob}
    (hG : env.syncGetFault = none)
    (hj : lookupJob w.store.jobs jobId = some job)
    (hv : lookupVideo w.store.videos job.source_video_id = none) :
    process_dubbing_sync env jobId w =
      (false, update_job_error env jobId noneTypeFilePathMsg w) := by
  unfold process_dubbing_sync process_dubbing_sync_try
  simp only [hG, hj, hv]

/-! Branch reductions of the inner stages. -/

/-- Inner stages when transcription yields a falsy result. -/
theorem inner_transcribe_fail {env : Env} {jobId : Nat} {vp : String} {lang : Option Language}
    {ap : String} {w : World}
    (ht : truthy (transcribe_audio env ap w.disk) = none) :
    inner_stages env jobId vp lang ap w =
      (Except.ok false, update_job_error env jobId "Failed to transcribe audio"
        (pushEvent (Event.stageStart 2) w)) := by
  unfold inner_stages
  simp only [pushEvent_disk, ht]

/-- Inner stages when transcription succeeds but the target language
reference dangles: reading code raises. -/
theorem inner_lang_none {env : Env} {jobId : Nat} {vp : String} {ap : String} {w : World}
    {t : String}
    (ht : truthy (transcribe_audio env ap w.disk) = some t) :
    inner_stages env jobId vp none ap w =
      (Except.error noneTypeCodeMsg, pushEvent (Event.stageStart 2) w) := by
  unfold inner_stages
  simp only [pushEvent_disk, ht]

/-- Inner stages when translation yields a falsy result. -/
theorem inner_translate_fail {env : Env} {jobId : Nat} {vp : String} {l : Language}
    {ap : String} {w : World} {t : String}
    (ht : truthy (transcribe_audio env ap w.disk) = some t)
    (htl : truthy (translate_text env t l.code) = none) :
    inner_stages env jobId vp (some l) ap w =
      (Except.ok false, update_job_error env jobId "Failed to translate text"
        (pushEvent (Event.stageStart 3) (pushEvent (Event.stageStart 2) w))) := by
  unfold inner_stages
  simp only [pushEvent_disk, ht, htl]

/-- Inner stages when speech synthesis yields a falsy result. -/
theorem inner_synth_fail {env : Env} {jobId : Nat} {vp : String} {l : Language}
    {ap : String} {w : World} {t u : String}
    (ht : truthy (transcribe_audio env ap w.disk) = some t)
    (htl : truthy (translate_text env t l.code) = some u)
    (hsy : truthy (if env.synthApiRaises then none else some env.synthTmp) = none) :
    inner_stages env jobId vp (some l) ap w =
      (Except.ok false, update_job_error env jobId "Failed to generate AI speech"
        (createFileW env.synthTmp
          (pushEvent (Event.stageStart 4)
            (pushEvent (Event.stageStart 3) (pushEvent (Event.stageStart 2) w))))) := by
  unfold inner_stages
  simp [pushEvent_disk, ht, htl, generate_ai_speech_eq, hsy]

/-- Inner stages when the mux stage yields a falsy result. -/
theorem inner_mux_fail {env : Env} {jobId : Nat} {vp : String} {l : Language}
    {ap : String} {w : World} {t u : String}
    (ht : truthy (transcribe_audio env ap w.disk) = some t)
    (htl : truthy (translate_text env t l.code) = some u)
    (hsy : env.synthApiRaises = false)
    (hst : env.synthTmp ≠ "")
    (hm : env.muxFfmpeg ≠ some 0) :
    inner_stages env jobId vp (some l) ap w =
      (Except.ok false, update_job_error env jobId "Failed to replace video audio"
        (pushEvent (Event.stageStart 5)
          (createFileW env.synthTmp
            (pushEvent (Event.stageStart 4)
              (pushEvent (Event.stageStart 3) (pushEvent (Event.stageStart 2) w)))))) := by
  unfold inner_stages
  simp [pushEvent_disk, ht, htl, generate_ai_speech_eq, hsy, truthy_some, hst,
    replace_video_audio_fail _ _ _ _ hm]

/-- Inner stages when every stage succeeds: the success write runs on the
world holding the output file. -/
theorem inner_success {env : Env} {jobId : Nat} {vp : String} {l : Language}
    {ap : String} {w : World} {t u : String}
    (ht : truthy (transcribe_audio env ap w.disk) = some t)
    (htl : truthy (translate_text env t l.code) = some u)
    (hsy : env.synthApiRaises = false)
    (hst : env.synthTmp ≠ "")
    (hm : env.muxFfmpeg = some 0) :
    inner_stages env jobId vp (some l) ap w =
      (Except.ok true, update_job_success env jobId
        ("outputs/" ++ output_filename vp l.code env.muxTimestamp)
        (createFileW ("outputs/" ++ output_filename vp l.code env.muxTimestamp)
          (pushEvent (Event.stageStart 5)
            (createFileW env.synthTmp
              (pushEvent (Event.stageStart 4)
                (pushEvent (Event.stageStart 3) (pushEvent (Event.stageStart 2) w))))))) := by
  have hne : ("outputs/" ++ output_filename vp l.code env.muxTimestamp) ≠ "" := by
    intro hx
    have := congrArg String.data hx
    rw [String.data_append] at this
    simp at this
  unfold inner_stages
  simp [pushEvent_disk, ht, htl, generate_ai_speech_eq, hsy, truthy_some, hst,
    replace_video_audio_ok _ _ _ _ hm, hne]

/-! Concrete fixtures used by witnesses and counterexamples. -/

def langEn : Language := { id := 1, code := "en", name := "English", is_active := true }

def langEs : Language := { id := 2, code := "es", name := "Spanish", is_active := true }

def videoFix : Video :=
  { id := 1, filename := "video_TS1.mp4", original_filename := "clip.mp4",
    file_path := "uploads/video_TS1.mp4", file_size := 5, duration := none,
    mime_type := "video/mp4", source_language_id := 1, uploaded_at := 0 }

def jobFix : DubbingJob := newJob 1 2 1 0

def storeFix : Store := { jobs := [jobFix], videos := [videoFix], languages := [langEn, langEs] }

def worldFix : World := { store := storeFix, disk := [], events := [] }

def envOk : Env :=
  { startWriteFault := none, syncGetFault := none, errorWriteRaises := false,
    successWriteRaises := false, extractTmp := "tmp1.wav", extractFfmpeg := some 0,
    transcribeApi := some "hello", translateApi := some (some "hola"),
    synthTmp := "tmp2.mp3", synthApiRaises := false, muxFfmpeg := some 0,
    muxTimestamp := "TS2", statSize := 9, now := 7 }

/-! Claim theorems. -/

/-- C9: for every sourceLanguageId, targetLanguages returns exactly the
active languages whose id differs from it; when no active language has
that id the result equals languages(), and the query is total. -/
theorem claim_target_languages (langs : List Language) (sid : Nat) :
    (∀ l, l ∈ get_target_languages langs sid ↔
      l ∈ langs ∧ l.is_active = true ∧ l.id ≠ sid) ∧
    ((∀ l ∈ get_languages langs, l.id ≠ sid) →
      get_target_languages langs sid = get_languages langs) := by
  constructor
  · intro l
    simp [get_target_languages, List.mem_filter, and_assoc]
  · intro h
    unfold get_target_languages get_languages
    apply List.filter_congr
    intro a ha
    by_cases hact : a.is_active
    · have hne : a.id ≠ sid := h a (by simp [get_languages, List.mem_filter, ha, hact])
      simp [hact, hne]
    · simp [hact]

/-- Witness for C9 at a concrete store: an id matching no active language
degrades the filter to a no-op. -/
theorem claim_target_languages_witness :
    get_target_languages [langEn, langEs] 999 = get_languages [langEn, langEs] :=
  (claim_target_languages [langEn, langEs] 999).2 (by decide)

/-- C10: createJob validates neither id: for every pair of ids it returns a
fresh PENDING job with no output fields, no processing timestamps and no
error message, and only appends it to the job table. -/
theorem claim_create_job_unvalidated (vid lid newId now : Nat) (st : Store) :
    (create_dubbing_job vid lid newId now st).1 = newJob vid lid newId now ∧
    (create_dubbing_job vid lid newId now st).1.status = DubbingStatus.pending ∧
    (create_dubbing_job vid lid newId now st).1.output_filename = none ∧
    (create_dubbing_job vid lid newId now st).1.output_file_path = none ∧
    (create_dubbing_job vid lid newId now st).1.output_file_size = none ∧
    (create_dubbing_job vid lid newId now st).1.processing_started_at = none ∧
    (create_dubbing_job vid lid newId now st).1.processing_completed_at = none ∧
    (create_dubbing_job vid lid newId now st).1.error_message = none ∧
    (create_dubbing_job vid lid newId now st).2.jobs = st.jobs ++ [newJob vid lid newId now] ∧
    (create_dubbing_job vid lid newId now st).2.videos = st.videos ∧
    (create_dubbing_job vid lid newId now st).2.languages = st.languages :=
  ⟨rfl, rfl, rfl, rfl, rfl, rfl, rfl, rfl, rfl, rfl, rfl⟩

/-- C7: whatever the adapters and the store do, including raising, the
dispatcher-visible outcome of a run is an ok boolean, never a propagated
fault. -/
theorem claim_completion_always_boolean (env : Env) (jobId : Nat) (w : World) :
    ∃ b : Bool, ∃ w' : World, process_dubbing_job env jobId w = (Except.ok b, w') := by
  unfold process_dubbing_job
  rcases h : process_dubbing_job_try env jobId w with ⟨e | b, w1⟩
  · exact ⟨false, update_job_error env jobId e w1, rfl⟩
  · exact ⟨b, w1, rfl⟩

/-- C5 (amended): creation always establishes the record invariant, and the
Processing, success and error writes preserve it when applied to a record
with no output fields and no error message populated. -/
theorem claim_writes_preserve_invariant :
    (∀ vid lid newId now, jobInv (newJob vid lid newId now)) ∧
    (∀ j : DubbingJob, ∀ now : Nat,
      j.output_filename = none → j.output_file_path = none → j.output_file_size = none →
      j.error_message = none →
      jobInv (markProcessing j now) ∧
      (∀ p sz, jobInv (markSuccess j p sz now)) ∧
      (∀ m, jobInv (markFailed j m now))) := by
  constructor
  · intro vid lid newId now
    simp [jobInv, newJob]
  · intro j now h1 h2 h3 h4
    refine ⟨?_, ?_, ?_⟩
    · simp [jobInv, markProcessing, h1, h2, h3, h4]
    · intro p sz
      simp [jobInv, markSuccess, h4]
    · intro m
      simp [jobInv, markFailed, h1, h2, h3]

/-- Counterexample for C5 as stated: the success write applied to a FAILED
record satisfying the invariant leaves the stale error message in place,
so the written record violates it. -/
theorem claim_writes_preserve_invariant_cex :
    jobInv (markFailed (newJob 1 2 1 0) "boom" 0) ∧
    ¬ jobInv (markSuccess (markFailed (newJob 1 2 1 0) "boom" 0) "outputs/a.mp4" 3 5) := by
  constructor
  · decide
  · decide

/-- Witness for C5: the success write on a clean record establishes the
invariant. -/
theorem claim_writes_preserve_invariant_witness :
    jobInv (markSuccess (newJob 1 2 1 0) "outputs/a.mp4" 3 5) :=
  (claim_writes_preserve_invariant.2 (newJob 1 2 1 0) 5 rfl rfl rfl rfl).2.1 "outputs/a.mp4" 3

/-- C6: outputPath returns a path exactly when the job exists, is
COMPLETED, and its recorded output file is on disk at the moment of the
call; the disk is consulted on every call, and a missing job or deleted
file yields absent rather than a fault. -/
theorem claim_output_path_iff (st : Store) (disk : List String) (jobId : Nat)
    (hdisk : "" ∉ disk) (p : String) :
    get_output_file_path st disk jobId = some p ↔
      ∃ job, lookupJob st.jobs jobId = some job ∧ job.status = DubbingStatus.completed ∧
        job.output_file_path = some p ∧ p ∈ disk := by
  unfold get_output_file_path
  rcases hj : lookupJob st.jobs jobId with _ | job
  · simp
  · by_cases hs : job.status = DubbingStatus.completed
    · rcases hop : job.output_file_path with _ | sP
      · simp [hs, hop, truthy]
      · by_cases hse : sP = ""
        · subst hse
          simp only [hs, if_true, hop, truthy_some, reduceIte, Option.some.injEq]
          constructor
          · intro hx
            cases hx
          · rintro ⟨job1, hjob1, _, hpath, hmem⟩
            cases hjob1
            rw [hop] at hpath
            cases hpath
            exact absurd hmem hdisk
        · simp only [hs, if_true, hop, truthy_some, hse, reduceIte, Option.some.injEq]
          by_cases hmem : sP ∈ disk
          · simp only [hmem, if_true, Option.some.injEq]
            constructor
            · rintro rfl
              exact ⟨job, rfl, hs, hop, hmem⟩
            · rintro ⟨job1, hjob1, _, hpath, _⟩
              cases hjob1
              rw [hop] at hpath
              cases hpath
              rfl
          · simp only [hmem, if_false]
            constructor
            · intro hx
              cases hx
            · rintro ⟨job1, hjob1, _, hpath, hmem1⟩
              cases hjob1
              rw [hop] at hpath
              cases hpath
              exact absurd hmem1 hmem
    · simp only [hs, if_false]
      constructor
      · intro hx
        cases hx
      · rintro ⟨job1, hjob1, hstat, _, _⟩
        cases hjob1
        exact absurd hstat hs

/-- Witness for C6 at a concrete completed job whose file is on disk. -/
theorem claim_output_path_iff_witness :
    get_output_file_path
      { jobs := [markSuccess jobFix "outputs/a.mp4" 3 5], videos := [], languages := [] }
      ["outputs/a.mp4"] 1 = some "outputs/a.mp4" :=
  (claim_output_path_iff _ _ 1 (by decide) _).mpr
    ⟨markSuccess jobFix "outputs/a.mp4" 3 5, by decide⟩

/-! Event-trace lemmas: every pipeline step only appends events, never a
Pending status write, and the status writers never append stage starts. -/

theorem notin_append {e : Event} {a b : List Event} (ha : e ∉ a) (hb : e ∉ b) :
    e ∉ a ++ b := by
  intro h
  rcases List.mem_append.mp h with h1 | h2
  · exact ha h1
  · exact hb h2

theorem update_job_error_events (env : Env) (i : Nat) (m : String) (w : World) :
    ∃ s, (update_job_error env i m w).events = w.events ++ s ∧
      Event.statusWrite DubbingStatus.pending ∉ s ∧
      (∀ k, Event.stageStart k ∉ s) := by
  unfold update_job_error
  by_cases hE : env.errorWriteRaises = true
  · exact ⟨[], by simp [hE], by simp, by simp⟩
  · simp only [Bool.not_eq_true] at hE
    rcases hl : lookupJob w.store.jobs i with _ | job
    · exact ⟨[], by simp [hE, hl], by simp, by simp⟩
    · exact ⟨[Event.statusWrite DubbingStatus.failed], by simp [hE, hl], by decide,
        fun k => by simp⟩

theorem update_job_success_events (env : Env) (i : Nat) (p : String) (w : World) :
    ∃ s, (update_job_success env i p w).events = w.events ++ s ∧
      Event.statusWrite DubbingStatus.pending ∉ s ∧
      (∀ k, Event.stageStart k ∉ s) := by
  unfold update_job_success
  by_cases hE : env.successWriteRaises = true
  · exact ⟨[], by simp [hE], by simp, by simp⟩
  · simp only [Bool.not_eq_true] at hE
    rcases hl : lookupJob w.store.jobs i with _ | job
    · exact ⟨[], by simp [hE, hl], by simp, by simp⟩
    · exact ⟨[Event.statusWrite DubbingStatus.completed], by simp [hE, hl], by decide,
        fun k => by simp⟩

theorem inner_stages_events (env : Env) (jobId : Nat) (vp : String) (lang : Option Language)
    (ap : String) (w : World) :
    ∃ s, (inner_stages env jobId vp lang ap w).2.events = w.events ++ s ∧
      Event.statusWrite DubbingStatus.pending ∉ s := by
  rcases h2 : truthy (transcribe_audio env ap w.disk) with _ | t
  · rw [inner_transcribe_fail h2]
    obtain ⟨s, hs, hp, _⟩ :=
      update_job_error_events env jobId "Failed to transcribe audio" (pushEvent (Event.stageStart 2) w)
    refine ⟨[Event.stageStart 2] ++ s, ?_, notin_append (by decide) hp⟩
    rw [hs]
    simp
  · rcases lang with _ | l
    · rw [inner_lang_none h2]
      exact ⟨[Event.stageStart 2], by simp, by decide⟩
    · rcases h3 : truthy (translate_text env t l.code) with _ | u
      · rw [inner_translate_fail h2 h3]
        obtain ⟨s, hs, hp, _⟩ := update_job_error_events env jobId "Failed to translate text"
          (pushEvent (Event.stageStart 3) (pushEvent (Event.stageStart 2) w))
        refine ⟨[Event.stageStart 2] ++ ([Event.stageStart 3] ++ s), ?_,
          notin_append (by decide) (notin_append (by decide) hp)⟩
        rw [hs]
        simp
      · rcases h4 : truthy (if env.synthApiRaises then none else some env.synthTmp) with _ | ai
        · rw [inner_synth_fail h2 h3 h4]
          obtain ⟨s, hs, hp, _⟩ := update_job_error_events env jobId "Failed to generate AI speech"
            (createFileW env.synthTmp (pushEvent (Event.stageStart 4)
              (pushEvent (Event.stageStart 3) (pushEvent (Event.stageStart 2) w))))
          refine ⟨[Event.stageStart 2] ++ ([Event.stageStart 3] ++ ([Event.stageStart 4] ++ s)), ?_,
            notin_append (by decide) (notin_append (by decide) (notin_append (by decide) hp))⟩
          rw [hs]
          simp
        · have hsy : env.synthApiRaises = false := by
            by_contra hx
            simp only [Bool.not_eq_false] at hx
            rw [hx] at h4
            simp at h4
          have hst : env.synthTmp ≠ "" := by
            intro hx
            rw [hsy, hx] at h4
            simp [truthy] at h4
          by_cases hm : env.muxFfmpeg = some 0
          · rw [inner_success h2 h3 hsy hst hm]
            obtain ⟨s, hs, hp, _⟩ := update_job_success_events env jobId
              ("outputs/" ++ output_filename vp l.code env.muxTimestamp)
              (createFileW ("outputs/" ++ output_filename vp l.code env.muxTimestamp)
                (pushEvent (Event.stageStart 5) (createFileW env.synthTmp
                  (pushEvent (Event.stageStart 4)
                    (pushEvent (Event.stageStart 3) (pushEvent (Event.stageStart 2) w))))))
            refine ⟨[Event.stageStart 2] ++ ([Event.stageStart 3] ++ ([Event.stageStart 4] ++
              ([Event.stageStart 5] ++ s))), ?_, notin_append (by decide) (notin_append (by decide)
              (notin_append (by decide) (notin_append (by decide) hp)))⟩
            rw [hs]
            simp
          · rw [inner_mux_fail h2 h3 hsy hst hm]
            obtain ⟨s, hs, hp, _⟩ := update_job_error_events env jobId "Failed to replace video audio"
              (pushEvent (Event.stageStart 5) (createFileW env.synthTmp
                (pushEvent (Event.stageStart 4)
                  (pushEvent (Event.stageStart 3) (pushEvent (Event.stageStart 2) w)))))
            refine ⟨[Event.stageStart 2] ++ ([Event.stageStart 3] ++ ([Event.stageStart 4] ++
              ([Event.stageStart 5] ++ s))), ?_, notin_append (by decide) (notin_append (by decide)
              (notin_append (by decide) (notin_append (by decide) hp)))⟩
            rw [hs]
            simp

theorem sync_events (env : Env) (jobId : Nat) (w : World) :
    ∃ s, (process_dubbing_sync env jobId w).2.events = w.events ++ s ∧
      Event.statusWrite DubbingStatus.pending ∉ s := by
  rcases hg : env.syncGetFault with _ | msg
  · rcases hj : lookupJob w.store.jobs jobId with _ | job
    · have hr : process_dubbing_sync env jobId w = (false, w) := by
        unfold process_dubbing_sync process_dubbing_sync_try
        simp only [hg, hj]
      exact ⟨[], by rw [hr]; simp, by simp⟩
    · rcases hv : lookupVideo w.store.videos job.source_video_id with _ | v
      · rw [sync_video_none hg hj hv]
        obtain ⟨s, hs, hp, _⟩ := update_job_error_events env jobId noneTypeFilePathMsg w
        exact ⟨s, hs, hp⟩
      · rcases htr : truthy (extract_audio env v.file_path (pushEvent (Event.stageStart 1) w)).1
          with _ | ap
        · rw [sync_extract_fail hg hj hv htr]
          obtain ⟨s, hs, hp, _⟩ := update_job_error_events env jobId
            "Failed to extract audio from video"
            (extract_audio env v.file_path (pushEvent (Event.stageStart 1) w)).2
          refine ⟨[Event.stageStart 1] ++ s, ?_, notin_append (by decide) hp⟩
          rw [hs, extract_audio_eq]
          simp
        · obtain ⟨si, hsi, hpi⟩ := inner_stages_events env jobId v.file_path
            (lookupLanguage w.store.languages job.target_language_id) ap
            (extract_audio env v.file_path (pushEvent (Event.stageStart 1) w)).2
          have hpev : (extract_audio env v.file_path (pushEvent (Event.stageStart 1) w)).2.events =
              w.events ++ [Event.stageStart 1] := by
            rw [extract_audio_eq]
            simp
          rcases hq : (inner_stages env jobId v.file_path
              (lookupLanguage w.store.languages job.target_language_id) ap
              (extract_audio env v.file_path (pushEvent (Event.stageStart 1) w)).2).1 with e | b
          · rw [sync_inner_error hg hj hv htr hq]
            obtain ⟨se, hse, hpe, _⟩ := update_job_error_events env jobId e
              (cleanupW ap (inner_stages env jobId v.file_path
                (lookupLanguage w.store.languages job.target_language_id) ap
                (extract_audio env v.file_path (pushEvent (Event.stageStart 1) w)).2).2)
            refine ⟨([Event.stageStart 1] ++ si) ++ se, ?_,
              notin_append (notin_append (by decide) hpi) hpe⟩
            rw [hse]
            simp only [cleanupW_events]
            rw [hsi, hpev]
            simp
          · rw [sync_inner_ok hg hj hv htr hq]
            refine ⟨[Event.stageStart 1] ++ si, ?_, notin_append (by decide) hpi⟩
            simp only [cleanupW_events]
            rw [hsi, hpev]
            simp
  · have hr : process_dubbing_sync env jobId w =
        (false, update_job_error env jobId msg w) := by
      unfold process_dubbing_sync process_dubbing_sync_try
      simp only [hg]
    rw [hr]
    obtain ⟨s, hs, hp, _⟩ := update_job_error_events env jobId msg w
    exact ⟨s, hs, hp⟩

/-- C8: for an existing job, every stage start in the run trace is
preceded by the Processing status write, no write in the trace is a
Pending write, and the Processing write carries the start timestamp. -/
theorem claim_processing_before_stages (env : Env) (jobId : Nat) (w₀ : World)
    (job : DubbingJob)
    (hj : lookupJob w₀.store.jobs jobId = some job)
    (hw : w₀.events = []) :
    (∀ l₁ k l₂, (process_dubbing_job env jobId w₀).2.events =
        l₁ ++ Event.stageStart k :: l₂ →
      Event.statusWrite DubbingStatus.processing ∈ l₁) ∧
    Event.statusWrite DubbingStatus.pending ∉ (process_dubbing_job env jobId w₀).2.events ∧
    (markProcessing job env.now).status = DubbingStatus.processing ∧
    (markProcessing job env.now).processing_started_at = some env.now := by
  rcases hS : env.startWriteFault with _ | msg
  · have hrun := run_reduce hS hj
    obtain ⟨s, hs, hp⟩ := sync_events env jobId (startWorld env job w₀)
    have hev : (process_dubbing_job env jobId w₀).2.events =
        Event.statusWrite DubbingStatus.processing :: s := by
      rw [hrun]
      simp only []
      rw [hs]
      simp [hw]
    refine ⟨?_, ?_, rfl, rfl⟩
    · intro l₁ k l₂ hdec
      rw [hev] at hdec
      cases l₁ with
      | nil => simp at hdec
      | cons a t =>
        rw [List.cons_append] at hdec
        injection hdec with h1 _
        rw [← h1]
        exact List.mem_cons_self _ _
    · rw [hev]
      intro h
      rcases List.mem_cons.mp h with h1 | h2
      · cases h1
      · exact hp h2
  · have hrun : process_dubbing_job env jobId w₀ =
        (Except.ok false, update_job_error env jobId msg w₀) := by
      unfold process_dubbing_job process_dubbing_job_try
      simp only [hS]
    obtain ⟨s, hs, hp, hstage⟩ := update_job_error_events env jobId msg w₀
    have hev : (process_dubbing_job env jobId w₀).2.events = s := by
      rw [hrun]
      simp only []
      rw [hs, hw]
      simp
    refine ⟨?_, ?_, rfl, rfl⟩
    · intro l₁ k l₂ hdec
      rw [hev] at hdec
      exact absurd (hdec ▸ (List.mem_append.mpr (Or.inr (List.mem_cons_self _ _)))) (hstage k)
    · rw [hev]
      exact hp

/-- Witness for C8 at a concrete run. -/
theorem claim_processing_before_stages_witness :
    Event.statusWrite DubbingStatus.pending ∉
      (process_dubbing_job envOk 1 worldFix).2.events :=
  (claim_processing_before_stages envOk 1 worldFix jobFix (by decide) rfl).2.1

/-- The translation adapter result is the API content regardless of the
input text and code. -/
theorem translate_text_eq (env : Env) (text code : String) :
    translate_text env text code = env.translateApi.join := by
  unfold translate_text
  cases env.translateApi <;> rfl

/-- What C1 asserts of a run failing at stage k: the run returns false, the
job row ends FAILED carrying exactly the stage label, and no later stage is
ever invoked. -/
def failsAtStage (env : Env) (jobId : Nat) (w₀ : World) (k : Nat) (label : String) : Prop :=
  (process_dubbing_job env jobId w₀).1 = Except.ok false ∧
  (∃ j', lookupJob (process_dubbing_job env jobId w₀).2.store.jobs jobId = some j' ∧
    j'.status = DubbingStatus.failed ∧ j'.error_message = some label) ∧
  (∀ m, k < m → Event.stageStart m ∉ (process_dubbing_job env jobId w₀).2.events)

/-- C1: if stage k yields an absent result (earlier stages succeeding), the
run stops there, returns false, and writes FAILED with stage k's fixed
label: "Failed to extract audio from video", "Failed to transcribe audio",
"Failed to translate text", "Failed to generate AI speech", "Failed to
replace video audio" for k = 1..5. -/
theorem claim_stage_failure (env : Env) (jobId : Nat) (w₀ : World)
    (job : DubbingJob) (v : Video) (l : Language)
    (hS : env.startWriteFault = none) (hG : env.syncGetFault = none)
    (hE : env.errorWriteRaises = false)
    (hj : lookupJob w₀.store.jobs jobId = some job)
    (hv : lookupVideo w₀.store.videos job.source_video_id = some v)
    (hl : lookupLanguage w₀.store.languages job.target_language_id = some l)
    (hw : w₀.events = []) :
    (env.extractFfmpeg ≠ some 0 →
      failsAtStage env jobId w₀ 1 "Failed to extract audio from video") ∧
    (env.extractFfmpeg = some 0 → env.extractTmp ≠ "" →
      truthy env.transcribeApi = none →
      failsAtStage env jobId w₀ 2 "Failed to transcribe audio") ∧
    (env.extractFfmpeg = some 0 → env.extractTmp ≠ "" →
      (∃ t, truthy env.transcribeApi = some t) →
      truthy env.translateApi.join = none →
      failsAtStage env jobId w₀ 3 "Failed to translate text") ∧
    (env.extractFfmpeg = some 0 → env.extractTmp ≠ "" →
      (∃ t, truthy env.transcribeApi = some t) →
      (∃ u, truthy env.translateApi.join = some u) →
      env.synthApiRaises = true →
      failsAtStage env jobId w₀ 4 "Failed to generate AI speech") ∧
    (env.extractFfmpeg = some 0 → env.extractTmp ≠ "" →
      (∃ t, truthy env.transcribeApi = some t) →
      (∃ u, truthy env.translateApi.join = some u) →
      env.synthApiRaises = false → env.synthTmp ≠ "" →
      env.muxFfmpeg ≠ some 0 →
      failsAtStage env jobId w₀ 5 "Failed to replace video audio") := by
  have hjW : lookupJob (startWorld env job w₀).store.jobs jobId =
      some (markProcessing job env.now) := lookupJob_startWorld hj
  have hvW : lookupVideo (startWorld env job w₀).store.videos
      (markProcessing job env.now).source_video_id = some v := by simpa using hv
  have hlW : lookupLanguage (startWorld env job w₀).store.languages
      (markProcessing job env.now).target_language_id = some l := by simpa using hl
  have hWev : (startWorld env job w₀).events =
      [Event.statusWrite DubbingStatus.processing] := by simp [hw]
  refine ⟨?_, ?_, ?_, ?_, ?_⟩
  · -- stage 1 fails
    intro h1
    have htr1 : truthy (extract_audio env v.file_path
        (pushEvent (Event.stageStart 1) (startWorld env job w₀))).1 = none := by
      rw [extract_audio_eq]
      simp [h1]
    have hsync := sync_extract_fail hG hjW hvW htr1
    have hrun : process_dubbing_job env jobId w₀ =
        (Except.ok false, update_job_error env jobId "Failed to extract audio from video"
          (extract_audio env v.file_path
            (pushEvent (Event.stageStart 1) (startWorld env job w₀))).2) := by
      rw [run_reduce hS hj, hsync]
    have hjp : lookupJob (extract_audio env v.file_path
        (pushEvent (Event.stageStart 1) (startWorld env job w₀))).2.store.jobs jobId =
        some (markProcessing job env.now) := by
      rw [extract_audio_eq]
      simpa using hjW
    obtain ⟨j', hj', hst, hmsg, hev⟩ :=
      final_failed "Failed to extract audio from video" hE hjp
    refine ⟨by rw [hrun], ⟨j', by rw [hrun]; exact hj', hst, hmsg⟩, ?_⟩
    intro m hm
    rw [hrun]
    show Event.stageStart m ∉ (update_job_error env jobId _ _).events
    rw [hev, extract_audio_eq]
    simp only [createFileW_events, pushEvent_events, hWev]
    simp
    omega
  · -- stage 2 fails
    intro hk0 hkt htA
    have htr1 : truthy (extract_audio env v.file_path
        (pushEvent (Event.stageStart 1) (startWorld env job w₀))).1 = some env.extractTmp := by
      rw [extract_audio_eq]
      simp [hk0, truthy_some, hkt]
    have hpw : (extract_audio env v.file_path
        (pushEvent (Event.stageStart 1) (startWorld env job w₀))).2 =
        createFileW env.extractTmp (pushEvent (Event.stageStart 1) (startWorld env job w₀)) := by
      rw [extract_audio_eq]
    have hmem : env.extractTmp ∈ (extract_audio env v.file_path
        (pushEvent (Event.stageStart 1) (startWorld env job w₀))).2.disk := by
      rw [hpw]
      exact mem_createFileW_self _ _
    have h2f : truthy (transcribe_audio env env.extractTmp
        (extract_audio env v.file_path
          (pushEvent (Event.stageStart 1) (startWorld env job w₀))).2.disk) = none := by
      rw [transcribe_audio_mem hmem]
      exact htA
    have hinner := @inner_transcribe_fail env jobId v.file_path
      (lookupLanguage (startWorld env job w₀).store.languages
          (markProcessing job env.now).target_language_id) env.extractTmp
      (extract_audio env v.file_path
          (pushEvent (Event.stageStart 1) (startWorld env job w₀))).2 h2f
    have hq : (inner_stages env jobId v.file_path
        (lookupLanguage (startWorld env job w₀).store.languages
          (markProcessing job env.now).target_language_id) env.extractTmp
        (extract_audio env v.file_path
          (pushEvent (Event.stageStart 1) (startWorld env job w₀))).2).1 =
        Except.ok false := by
      rw [hinner]
    have hsync := sync_inner_ok hG hjW hvW htr1 hq
    have hrun : process_dubbing_job env jobId w₀ =
        (Except.ok false, cleanupW env.extractTmp (inner_stages env jobId v.file_path
          (lookupLanguage (startWorld env job w₀).store.languages
            (markProcessing job env.now).target_language_id) env.extractTmp
          (extract_audio env v.file_path
            (pushEvent (Event.stageStart 1) (startWorld env job w₀))).2).2) := by
      rw [run_reduce hS hj, hsync]
    have hjp : lookupJob (pushEvent (Event.stageStart 2)
        (extract_audio env v.file_path
          (pushEvent (Event.stageStart 1) (startWorld env job w₀))).2).store.jobs jobId =
        some (markProcessing job env.now) := by
      rw [hpw]
      simpa using hjW
    obtain ⟨j', hj', hst, hmsg, hev⟩ := final_failed "Failed to transcribe audio" hE hjp
    refine ⟨by rw [hrun], ⟨j', ?_, hst, hmsg⟩, ?_⟩
    · rw [hrun]
      show lookupJob (cleanupW _ _).store.jobs jobId = some j'
      rw [hinner]
      simp only [cleanupW_store]
      exact hj'
    · intro m hm
      rw [hrun]
      show Event.stageStart m ∉ (cleanupW _ _).events
      rw [hinner]
      simp only [cleanupW_events]
      rw [hev, hpw]
      simp only [createFileW_events, pushEvent_events, hWev]
      simp
      omega
  · -- stage 3 fails
    intro hk0 hkt ht hx
    obtain ⟨t, htA⟩ := ht
    have htr1 : truthy (extract_audio env v.file_path
        (pushEvent (Event.stageStart 1) (startWorld env job w₀))).1 = some env.extractTmp := by
      rw [extract_audio_eq]
      simp [hk0, truthy_some, hkt]
    have hpw : (extract_audio env v.file_path
        (pushEvent (Event.stageStart 1) (startWorld env job w₀))).2 =
        createFileW env.extractTmp (pushEvent (Event.stageStart 1) (startWorld env job w₀)) := by
      rw [extract_audio_eq]
    have hmem : env.extractTmp ∈ (extract_audio env v.file_path
        (pushEvent (Event.stageStart 1) (startWorld env job w₀))).2.disk := by
      rw [hpw]
      exact mem_createFileW_self _ _
    have h2s : truthy (transcribe_audio env env.extractTmp
        (extract_audio env v.file_path
          (pushEvent (Event.stageStart 1) (startWorld env job w₀))).2.disk) = some t := by
      rw [transcribe_audio_mem hmem]
      exact htA
    have h3f : truthy (translate_text env t l.code) = none := by
      rw [translate_text_eq]
      exact hx
    have hinner := @inner_translate_fail env jobId v.file_path l env.extractTmp
      (extract_audio env v.file_path
          (pushEvent (Event.stageStart 1) (startWorld env job w₀))).2 t h2s h3f
    have hq : (inner_stages env jobId v.file_path
        (lookupLanguage (startWorld env job w₀).store.languages
          (markProcessing job env.now).target_language_id) env.extractTmp
        (extract_audio env v.file_path
          (pushEvent (Event.stageStart 1) (startWorld env job w₀))).2).1 =
        Except.ok false := by
      rw [hlW, hinner]
    have hsync := sync_inner_ok hG hjW hvW htr1 hq
    have hrun : process_dubbing_job env jobId w₀ =
        (Except.ok false, cleanupW env.extractTmp (inner_stages env jobId v.file_path
          (lookupLanguage (startWorld env job w₀).store.languages
            (markProcessing job env.now).target_language_id) env.extractTmp
          (extract_audio env v.file_path
            (pushEvent (Event.stageStart 1) (startWorld env job w₀))).2).2) := by
      rw [run_reduce hS hj, hsync]
    have hjp : lookupJob (pushEvent (Event.stageStart 3) (pushEvent (Event.stageStart 2)
        (extract_audio env v.file_path
          (pushEvent (Event.stageStart 1) (startWorld env job w₀))).2)).store.jobs jobId =
        some (markProcessing job env.now) := by
      rw [hpw]
      simpa using hjW
    obtain ⟨j', hj', hst, hmsg, hev⟩ := final_failed "Failed to translate text" hE hjp
    refine ⟨by rw [hrun], ⟨j', ?_, hst, hmsg⟩, ?_⟩
    · rw [hrun]
      show lookupJob (cleanupW _ _).store.jobs jobId = some j'
      rw [hlW, hinner]
      simp only [cleanupW_store]
      exact hj'
    · intro m hm
      rw [hrun]
      show Event.stageStart m ∉ (cleanupW _ _).events
      rw [hlW, hinner]
      simp only [cleanupW_events]
      rw [hev, hpw]
      simp only [createFileW_events, pushEvent_events, hWev]
      simp
      omega
  · -- stage 4 fails
    intro hk0 hkt ht hu hsy4
    obtain ⟨t, htA⟩ := ht
    obtain ⟨u, htU⟩ := hu
    have htr1 : truthy (extract_audio env v.file_path
        (pushEvent (Event.stageStart 1) (startWorld env job w₀))).1 = some env.extractTmp := by
      rw [extract_audio_eq]
      simp [hk0, truthy_some, hkt]
    have hpw : (extract_audio env v.file_path
        (pushEvent (Event.stageStart 1) (startWorld env job w₀))).2 =
        createFileW env.extractTmp (pushEvent (Event.stageStart 1) (startWorld env job w₀)) := by
      rw [extract_audio_eq]
    have hmem : env.extractTmp ∈ (extract_audio env v.file_path
        (pushEvent (Event.stageStart 1) (startWorld env job w₀))).2.disk := by
      rw [hpw]
      exact mem_createFileW_self _ _
    have h2s : truthy (transcribe_audio env env.extractTmp
        (extract_audio env v.file_path
          (pushEvent (Event.stageStart 1) (startWorld env job w₀))).2.disk) = some t := by
      rw [transcribe_audio_mem hmem]
      exact htA
    have h3s : truthy (translate_text env t l.code) = some u := by
      rw [translate_text_eq]
      exact htU
    have h4f : truthy (if env.synthApiRaises then none else some env.synthTmp) = none := by
      simp [hsy4]
    have hinner := @inner_synth_fail env jobId v.file_path l env.extractTmp
      (extract_audio env v.file_path
          (pushEvent (Event.stageStart 1) (startWorld env job w₀))).2 t u h2s h3s h4f
    have hq : (inner_stages env jobId v.file_path
        (lookupLanguage (startWorld env job w₀).store.languages
          (markProcessing job env.now).target_language_id) env.extractTmp
        (extract_audio env v.file_path
          (pushEvent (Event.stageStart 1) (startWorld env job w₀))).2).1 =
        Except.ok false := by
      rw [hlW, hinner]
    have hsync := sync_inner_ok hG hjW hvW htr1 hq
    have hrun : process_dubbing_job env jobId w₀ =
        (Except.ok false, cleanupW env.extractTmp (inner_stages env jobId v.file_path
          (lookupLanguage (startWorld env job w₀).store.languages
            (markProcessing job env.now).target_language_id) env.extractTmp
          (extract_audio env v.file_path
            (pushEvent (Event.stageStart 1) (startWorld env job w₀))).2).2) := by
      rw [run_reduce hS hj, hsync]
    have hjp : lookupJob (createFileW env.synthTmp (pushEvent (Event.stageStart 4)
        (pushEvent (Event.stageStart 3) (pushEvent (Event.stageStart 2)
          (extract_audio env v.file_path
            (pushEvent (Event.stageStart 1) (startWorld env job w₀))).2)))).store.jobs jobId =
        some (markProcessing job env.now) := by
      rw [hpw]
      simpa using hjW
    obtain ⟨j', hj', hst, hmsg, hev⟩ := final_failed "Failed to generate AI speech" hE hjp
    refine ⟨by rw [hrun], ⟨j', ?_, hst, hmsg⟩, ?_⟩
    · rw [hrun]
      show lookupJob (cleanupW _ _).store.jobs jobId = some j'
      rw [hlW, hinner]
      simp only [cleanupW_store]
      exact hj'
    · intro m hm
      rw [hrun]
      show Event.stageStart m ∉ (cleanupW _ _).events
      rw [hlW, hinner]
      simp only [cleanupW_events]
      rw [hev, hpw]
      simp only [createFileW_events, pushEvent_events, hWev]
      simp
      omega
  · -- stage 5 fails
    intro hk0 hkt ht hu hsy5 hst5 hm5
    obtain ⟨t, htA⟩ := ht
    obtain ⟨u, htU⟩ := hu
    have htr1 : truthy (extract_audio env v.file_path
        (pushEvent (Event.stageStart 1) (startWorld env job w₀))).1 = some env.extractTmp := by
      rw [extract_audio_eq]
      simp [hk0, truthy_some, hkt]
    have hpw : (extract_audio env v.file_path
        (pushEvent (Event.stageStart 1) (startWorld env job w₀))).2 =
        createFileW env.extractTmp (pushEvent (Event.stageStart 1) (startWorld env job w₀)) := by
      rw [extract_audio_eq]
    have hmem : env.extractTmp ∈ (extract_audio env v.file_path
        (pushEvent (Event.stageStart 1) (startWorld env job w₀))).2.disk := by
      rw [hpw]
      exact mem_createFileW_self _ _
    have h2s : truthy (transcribe_audio env env.extractTmp
        (extract_audio env v.file_path
          (pushEvent (Event.stageStart 1) (startWorld env job w₀))).2.disk) = some t := by
      rw [transcribe_audio_mem hmem]
      exact htA
    have h3s : truthy (translate_text env t l.code) = some u := by
      rw [translate_text_eq]
      exact htU
    have hinner := @inner_mux_fail env jobId v.file_path l env.extractTmp
      (extract_audio env v.file_path
          (pushEvent (Event.stageStart 1) (startWorld env job w₀))).2 t u h2s h3s hsy5 hst5 hm5
    have hq : (inner_stages env jobId v.file_path
        (lookupLanguage (startWorld env job w₀).store.languages
          (markProcessing job env.now).target_language_id) env.extractTmp
        (extract_audio env v.file_path
          (pushEvent (Event.stageStart 1) (startWorld env job w₀))).2).1 =
        Except.ok false := by
      rw [hlW, hinner]
    have hsync := sync_inner_ok hG hjW hvW htr1 hq
    have hrun : process_dubbing_job env jobId w₀ =
        (Except.ok false, cleanupW env.extractTmp (inner_stages env jobId v.file_path
          (lookupLanguage (startWorld env job w₀).store.languages
            (markProcessing job env.now).target_language_id) env.extractTmp
          (extract_audio env v.file_path
            (pushEvent (Event.stageStart 1) (startWorld env job w₀))).2).2) := by
      rw [run_reduce hS hj, hsync]
    have hjp : lookupJob (pushEvent (Event.stageStart 5) (createFileW env.synthTmp
        (pushEvent (Event.stageStart 4) (pushEvent (Event.stageStart 3)
          (pushEvent (Event.stageStart 2)
            (extract_audio env v.file_path
              (pushEvent (Event.stageStart 1) (startWorld env job w₀))).2))))).store.jobs jobId =
        some (markProcessing job env.now) := by
      rw [hpw]
      simpa using hjW
    obtain ⟨j', hj', hst, hmsg, hev⟩ := final_failed "Failed to replace video audio" hE hjp
    refine ⟨by rw [hrun], ⟨j', ?_, hst, hmsg⟩, ?_⟩
    · rw [hrun]
      show lookupJob (cleanupW _ _).store.jobs jobId = some j'
      rw [hlW, hinner]
      simp only [cleanupW_store]
      exact hj'
    · intro m hm
      rw [hrun]
      show Event.stageStart m ∉ (cleanupW _ _).events
      rw [hlW, hinner]
      simp only [cleanupW_events]
      rw [hev, hpw]
      simp only [createFileW_events, pushEvent_events, hWev]
      simp
      omega

/-- Witness for C1: with the transcription API raising, a concrete run
fails at stage 2 with the exact label. -/
theorem claim_stage_failure_witness :
    failsAtStage { envOk with transcribeApi := none } 1 worldFix 2
      "Failed to transcribe audio" :=
  (claim_stage_failure { envOk with transcribeApi := none } 1 worldFix jobFix videoFix langEs
    rfl rfl rfl (by decide) (by decide) (by decide) rfl).2.1 rfl (by decide) rfl

/-- The error write on a missing row leaves the world untouched. -/
theorem update_job_error_notfound {env : Env} {i : Nat} {m : String} {w : World}
    (h : lookupJob w.store.jobs i = none) :
    update_job_error env i m w = w := by
  unfold update_job_error
  by_cases hE : env.errorWriteRaises = true
  · simp [hE]
  · simp only [Bool.not_eq_true] at hE
    simp [hE, h]

/-- C2 (amended): a run on a nonexistent jobId returns failure and leaves
the whole world, records and trace, unchanged; a run on an existing job
whose video or language reference does not resolve returns failure but
does mutate the job row, which ends FAILED. -/
theorem claim_missing_refs (env : Env) (jobId : Nat) (w₀ : World) :
    (lookupJob w₀.store.jobs jobId = none →
      process_dubbing_job env jobId w₀ = (Except.ok false, w₀)) ∧
    (∀ job, lookupJob w₀.store.jobs jobId = some job →
      (lookupVideo w₀.store.videos job.source_video_id = none ∨
        lookupLanguage w₀.store.languages job.target_language_id = none) →
      env.startWriteFault = none → env.syncGetFault = none → env.errorWriteRaises = false →
      (process_dubbing_job env jobId w₀).1 = Except.ok false ∧
      ∃ j', lookupJob (process_dubbing_job env jobId w₀).2.store.jobs jobId = some j' ∧
        j'.status = DubbingStatus.failed) := by
  constructor
  · intro h
    rcases hS : env.startWriteFault with _ | msg
    · unfold process_dubbing_job process_dubbing_job_try
      simp only [hS, h]
    · have hupd : update_job_error env jobId msg w₀ = w₀ := update_job_error_notfound h
      unfold process_dubbing_job process_dubbing_job_try
      simp only [hS, hupd]
  · intro job hj hdang hS hG hE
    have hjW : lookupJob (startWorld env job w₀).store.jobs jobId =
        some (markProcessing job env.now) := lookupJob_startWorld hj
    rcases hdang with hvN | hlN
    · -- dangling video reference
      have hvW : lookupVideo (startWorld env job w₀).store.videos
          (markProcessing job env.now).source_video_id = none := by simpa using hvN
      have hsync := sync_video_none hG hjW hvW
      have hrun : process_dubbing_job env jobId w₀ =
          (Except.ok false,
            update_job_error env jobId noneTypeFilePathMsg (startWorld env job w₀)) := by
        rw [run_reduce hS hj, hsync]
      obtain ⟨j', hj', hst, _, _⟩ := final_failed noneTypeFilePathMsg hE hjW
      exact ⟨by rw [hrun], ⟨j', by rw [hrun]; exact hj', hst⟩⟩
    · -- dangling language reference
      have hlW : lookupLanguage (startWorld env job w₀).store.languages
          (markProcessing job env.now).target_language_id = none := by simpa using hlN
      rcases hv : lookupVideo w₀.store.videos job.source_video_id with _ | v
      · have hvW : lookupVideo (startWorld env job w₀).store.videos
            (markProcessing job env.now).source_video_id = none := by simpa using hv
        have hsync := sync_video_none hG hjW hvW
        have hrun : process_dubbing_job env jobId w₀ =
            (Except.ok false,
              update_job_error env jobId noneTypeFilePathMsg (startWorld env job w₀)) := by
          rw [run_reduce hS hj, hsync]
        obtain ⟨j', hj', hst, _, _⟩ := final_failed noneTypeFilePathMsg hE hjW
        exact ⟨by rw [hrun], ⟨j', by rw [hrun]; exact hj', hst⟩⟩
      · have hvW : lookupVideo (startWorld env job w₀).store.videos
            (markProcessing job env.now).source_video_id = some v := by simpa using hv
        rcases htr : truthy (extract_audio env v.file_path
            (pushEvent (Event.stageStart 1) (startWorld env job w₀))).1 with _ | ap
        · -- extraction itself fails first
          have hsync := sync_extract_fail hG hjW hvW htr
          have hrun : process_dubbing_job env jobId w₀ =
              (Except.ok false, update_job_error env jobId "Failed to extract audio from video"
                (extract_audio env v.file_path
                  (pushEvent (Event.stageStart 1) (startWorld env job w₀))).2) := by
            rw [run_reduce hS hj, hsync]
          have hjp : lookupJob (extract_audio env v.file_path
              (pushEvent (Event.stageStart 1) (startWorld env job w₀))).2.store.jobs jobId =
              some (markProcessing job env.now) := by
            rw [extract_audio_eq]
            simpa using hjW
          obtain ⟨j', hj', hst, _, _⟩ :=
            final_failed "Failed to extract audio from video" hE hjp
          exact ⟨by rw [hrun], ⟨j', by rw [hrun]; exact hj', hst⟩⟩
        · rcases h2 : truthy (transcribe_audio env ap (extract_audio env v.file_path
              (pushEvent (Event.stageStart 1) (startWorld env job w₀))).2.disk) with _ | t
          · -- transcription fails first
            have hinner := @inner_transcribe_fail env jobId v.file_path
              (lookupLanguage (startWorld env job w₀).store.languages
                (markProcessing job env.now).target_language_id) ap
              (extract_audio env v.file_path
                (pushEvent (Event.stageStart 1) (startWorld env job w₀))).2 h2
            have hq : (inner_stages env jobId v.file_path
                (lookupLanguage (startWorld env job w₀).store.languages
                  (markProcessing job env.now).target_language_id) ap
                (extract_audio env v.file_path
                  (pushEvent (Event.stageStart 1) (startWorld env job w₀))).2).1 =
                Except.ok false := by
              rw [hinner]
            have hsync := sync_inner_ok hG hjW hvW htr hq
            have hrun : process_dubbing_job env jobId w₀ =
                (Except.ok false, cleanupW ap (inner_stages env jobId v.file_path
                  (lookupLanguage (startWorld env job w₀).store.languages
                    (markProcessing job env.now).target_language_id) ap
                  (extract_audio env v.file_path
                    (pushEvent (Event.stageStart 1) (startWorld env job w₀))).2).2) := by
              rw [run_reduce hS hj, hsync]
            have hjp : lookupJob (pushEvent (Event.stageStart 2)
                (extract_audio env v.file_path
                  (pushEvent (Event.stageStart 1) (startWorld env job w₀))).2).store.jobs jobId =
                some (markProcessing job env.now) := by
              rw [extract_audio_eq]
              simpa using hjW
            obtain ⟨j', hj', hst, _, _⟩ := final_failed "Failed to transcribe audio" hE hjp
            refine ⟨by rw [hrun], ⟨j', ?_, hst⟩⟩
            rw [hrun]
            show lookupJob (cleanupW _ _).store.jobs jobId = some j'
            rw [hinner]
            simp only [cleanupW_store]
            exact hj'
          · -- reading code on the dangling language raises
            have hinner := @inner_lang_none env jobId v.file_path ap
              (extract_audio env v.file_path
                (pushEvent (Event.stageStart 1) (startWorld env job w₀))).2 t h2
            have hq : (inner_stages env jobId v.file_path
                (lookupLanguage (startWorld env job w₀).store.languages
                  (markProcessing job env.now).target_language_id) ap
                (extract_audio env v.file_path
                  (pushEvent (Event.stageStart 1) (startWorld env job w₀))).2).1 =
                Except.error noneTypeCodeMsg := by
              rw [hlW, hinner]
            have hsync := sync_inner_error hG hjW hvW htr hq
            have hrun : process_dubbing_job env jobId w₀ =
                (Except.ok false, update_job_error env jobId noneTypeCodeMsg
                  (cleanupW ap (inner_stages env jobId v.file_path
                    (lookupLanguage (startWorld env job w₀).store.languages
                      (markProcessing job env.now).target_language_id) ap
                    (extract_audio env v.file_path
                      (pushEvent (Event.stageStart 1) (startWorld env job w₀))).2).2)) := by
              rw [run_reduce hS hj, hsync]
            have hjp : lookupJob (cleanupW ap (inner_stages env jobId v.file_path
                (lookupLanguage (startWorld env job w₀).store.languages
                  (markProcessing job env.now).target_language_id) ap
                (extract_audio env v.file_path
                  (pushEvent (Event.stageStart 1) (startWorld env job w₀))).2).2).store.jobs
                jobId = some (markProcessing job env.now) := by
              rw [hlW, hinner]
              simp only [cleanupW_store, pushEvent_store]
              rw [extract_audio_eq]
              simpa using hjW
            obtain ⟨j', hj', hst, _, _⟩ := final_failed noneTypeCodeMsg hE hjp
            exact ⟨by rw [hrun], ⟨j', by rw [hrun]; exact hj', hst⟩⟩

/-- Fixture for the C2 counterexample: job 1 references video 7 which does
not exist. -/
def worldDangling : World :=
  { store := { jobs := [newJob 7 2 1 0], videos := [], languages := [langEn, langEs] },
    disk := [], events := [] }

/-- Counterexample for C2 as stated: on a job whose video reference does
not resolve, the run returns failure but does NOT leave the job records
unchanged — the job row is mutated. -/
theorem claim_missing_refs_cex :
    (process_dubbing_job envOk 1 worldDangling).1 = Except.ok false ∧
    lookupJob (process_dubbing_job envOk 1 worldDangling).2.store.jobs 1 ≠
      lookupJob worldDangling.store.jobs 1 := by
  constructor
  · rfl
  · decide

/-- Witness for C2: a run on a nonexistent jobId leaves the world
untouched. -/
theorem claim_missing_refs_witness :
    process_dubbing_job envOk 5 worldFix = (Except.ok false, worldFix) :=
  (claim_missing_refs envOk 5 worldFix).1 (by decide)

/-! Disk-count lemmas: the extraction temp file never gets duplicated, so
the finally-block unlink really removes it. -/

theorem count_createFileW {x p : String} {w : World} (h : w.disk.count x ≤ 1) :
    (createFileW p w).disk.count x ≤ 1 := by
  unfold createFileW
  by_cases hp : p ∈ w.disk
  · simpa [hp] using h
  · simp only [hp, if_false]
    by_cases hxp : p = x
    · subst hxp
      have h0 : w.disk.count p = 0 := List.count_eq_zero.mpr hp
      simp [List.count_cons, h0]
    · have : (p == x) = false := by simp [hxp]
      simp [List.count_cons, this]
      exact h

theorem cleanup_removes {p : String} {w : World} (h : w.disk.count p ≤ 1) :
    p ∉ (cleanupW p w).disk := by
  unfold cleanupW
  by_cases hp : p ∈ w.disk
  · simp only [hp, if_true]
    have h1 : w.disk.count p ≠ 0 := fun hz => (List.count_eq_zero.mp hz) hp
    have h0 : (w.disk.erase p).count p = w.disk.count p - 1 := List.count_erase_self p w.disk
    have h2 : (w.disk.erase p).count p = 0 := by omega
    exact List.count_eq_zero.mp h2
  · rw [if_neg hp]
    exact hp

theorem mem_cleanupW_of_ne {a p : String} {w : World} (hne : a ≠ p) :
    a ∈ (cleanupW p w).disk ↔ a ∈ w.disk := by
  unfold cleanupW
  by_cases hp : p ∈ w.disk
  · simp only [hp, if_true]
    exact List.mem_erase_of_ne hne
  · simp [hp]

theorem inner_stages_disk_count (env : Env) (jobId : Nat) (vp : String) (lang : Option Language)
    (ap : String) (w : World) (x : String)
    (h : w.disk.count x ≤ 1) :
    (inner_stages env jobId vp lang ap w).2.disk.count x ≤ 1 := by
  rcases h2 : truthy (transcribe_audio env ap w.disk) with _ | t
  · rw [inner_transcribe_fail h2]
    simpa using h
  · rcases lang with _ | l
    · rw [inner_lang_none h2]
      simpa using h
    · rcases h3 : truthy (translate_text env t l.code) with _ | u
      · rw [inner_translate_fail h2 h3]
        simpa using h
      · rcases h4 : truthy (if env.synthApiRaises then none else some env.synthTmp) with _ | ai
        · rw [inner_synth_fail h2 h3 h4]
          simp only [update_job_error_disk]
          exact count_createFileW (by simpa using h)
        · have hsy : env.synthApiRaises = false := by
            by_contra hx
            simp only [Bool.not_eq_false] at hx
            rw [hx] at h4
            simp at h4
          have hst : env.synthTmp ≠ "" := by
            intro hx
            rw [hsy, hx] at h4
            simp [truthy] at h4
          by_cases hm : env.muxFfmpeg = some 0
          · rw [inner_success h2 h3 hsy hst hm]
            simp only [update_job_success_disk]
            apply count_createFileW
            simp only [pushEvent_disk]
            exact count_createFileW (by simpa using h)
          · rw [inner_mux_fail h2 h3 hsy hst hm]
            simp only [update_job_error_disk, pushEvent_disk]
            exact count_createFileW (by simpa using h)

/-- C3 (amended): once the extraction stage has succeeded, the
intermediate audio artifact is gone from disk after the run whatever the
outcome, and on success the produced output artifact is on disk and is not
deleted; a failed extraction, however, leaks its temp file (see the
counterexample). -/
theorem claim_cleanup (env : Env) (jobId : Nat) (w₀ : World) (job : DubbingJob) (v : Video)
    (hS : env.startWriteFault = none) (hG : env.syncGetFault = none)
    (hj : lookupJob w₀.store.jobs jobId = some job)
    (hv : lookupVideo w₀.store.videos job.source_video_id = some v)
    (hff : env.extractFfmpeg = some 0)
    (htm : env.extractTmp ≠ "")
    (hfresh : env.extractTmp ∉ w₀.disk)
    (hout : ∀ s, env.extractTmp ≠ "outputs/" ++ s) :
    env.extractTmp ∉ (process_dubbing_job env jobId w₀).2.disk ∧
    (∀ l, lookupLanguage w₀.store.languages job.target_language_id = some l →
      (process_dubbing_job env jobId w₀).1 = Except.ok true →
      ("outputs/" ++ output_filename v.file_path l.code env.muxTimestamp) ∈
        (process_dubbing_job env jobId w₀).2.disk) := by
  have hjW : lookupJob (startWorld env job w₀).store.jobs jobId =
      some (markProcessing job env.now) := lookupJob_startWorld hj
  have hvW : lookupVideo (startWorld env job w₀).store.videos
      (markProcessing job env.now).source_video_id = some v := by simpa using hv
  have htr1 : truthy (extract_audio env v.file_path
      (pushEvent (Event.stageStart 1) (startWorld env job w₀))).1 = some env.extractTmp := by
    rw [extract_audio_eq]
    simp [hff, truthy_some, htm]
  have hcount0 : w₀.disk.count env.extractTmp ≤ 1 := by
    have := List.count_eq_zero.mpr hfresh
    omega
  have hcountP2 : (extract_audio env v.file_path
      (pushEvent (Event.stageStart 1) (startWorld env job w₀))).2.disk.count
      env.extractTmp ≤ 1 := by
    rw [extract_audio_eq]
    exact count_createFileW (by simpa using hcount0)
  have hcountInner := inner_stages_disk_count env jobId v.file_path
    (lookupLanguage (startWorld env job w₀).store.languages
      (markProcessing job env.now).target_language_id) env.extractTmp
    (extract_audio env v.file_path
      (pushEvent (Event.stageStart 1) (startWorld env job w₀))).2 env.extractTmp hcountP2
  have hnotin : env.extractTmp ∉ (cleanupW env.extractTmp (inner_stages env jobId v.file_path
      (lookupLanguage (startWorld env job w₀).store.languages
        (markProcessing job env.now).target_language_id) env.extractTmp
      (extract_audio env v.file_path
        (pushEvent (Event.stageStart 1) (startWorld env job w₀))).2).2).disk :=
    cleanup_removes hcountInner
  constructor
  · -- the temp file is gone in every branch
    rcases hq : (inner_stages env jobId v.file_path
        (lookupLanguage (startWorld env job w₀).store.languages
          (markProcessing job env.now).target_language_id) env.extractTmp
        (extract_audio env v.file_path
          (pushEvent (Event.stageStart 1) (startWorld env job w₀))).2).1 with e | b
    · have hsync := sync_inner_error hG hjW hvW htr1 hq
      have hrun := run_reduce hS hj
      rw [hrun, hsync]
      simpa using hnotin
    · have hsync := sync_inner_ok hG hjW hvW htr1 hq
      have hrun := run_reduce hS hj
      rw [hrun, hsync]
      exact hnotin
  · -- on success the output artifact is present
    intro l hl htrue
    have hlW : lookupLanguage (startWorld env job w₀).store.languages
        (markProcessing job env.now).target_language_id = some l := by simpa using hl
    have hpw : (extract_audio env v.file_path
        (pushEvent (Event.stageStart 1) (startWorld env job w₀))).2 =
        createFileW env.extractTmp (pushEvent (Event.stageStart 1) (startWorld env job w₀)) := by
      rw [extract_audio_eq]
    rcases h2 : truthy (transcribe_audio env env.extractTmp
        (extract_audio env v.file_path
          (pushEvent (Event.stageStart 1) (startWorld env job w₀))).2.disk) with _ | t
    · have hinner := @inner_transcribe_fail env jobId v.file_path
        (lookupLanguage (startWorld env job w₀).store.languages
          (markProcessing job env.now).target_language_id) env.extractTmp
        (extract_audio env v.file_path
          (pushEvent (Event.stageStart 1) (startWorld env job w₀))).2 h2
      have hq : (inner_stages env jobId v.file_path
          (lookupLanguage (startWorld env job w₀).store.languages
            (markProcessing job env.now).target_language_id) env.extractTmp
          (extract_audio env v.file_path
            (pushEvent (Event.stageStart 1) (startWorld env job w₀))).2).1 =
          Except.ok false := by rw [hinner]
      have hsync := sync_inner_ok hG hjW hvW htr1 hq
      rw [run_reduce hS hj, hsync] at htrue
      simp at htrue
    · rcases h3 : truthy (translate_text env t l.code) with _ | u
      · have hinner := @inner_translate_fail env jobId v.file_path l env.extractTmp
          (extract_audio env v.file_path
            (pushEvent (Event.stageStart 1) (startWorld env job w₀))).2 t h2 h3
        have hq : (inner_stages env jobId v.file_path
            (lookupLanguage (startWorld env job w₀).store.languages
              (markProcessing job env.now).target_language_id) env.extractTmp
            (extract_audio env v.file_path
              (pushEvent (Event.stageStart 1) (startWorld env job w₀))).2).1 =
            Except.ok false := by rw [hlW, hinner]
        have hsync := sync_inner_ok hG hjW hvW htr1 hq
        rw [run_reduce hS hj, hsync] at htrue
        simp at htrue
      · rcases h4 : truthy (if env.synthApiRaises then none else some env.synthTmp) with _ | ai
        · have hinner := @inner_synth_fail env jobId v.file_path l env.extractTmp
            (extract_audio env v.file_path
              (pushEvent (Event.stageStart 1) (startWorld env job w₀))).2 t u h2 h3 h4
          have hq : (inner_stages env jobId v.file_path
              (lookupLanguage (startWorld env job w₀).store.languages
                (markProcessing job env.now).target_language_id) env.extractTmp
              (extract_audio env v.file_path
                (pushEvent (Event.stageStart 1) (startWorld env job w₀))).2).1 =
              Except.ok false := by rw [hlW, hinner]
          have hsync := sync_inner_ok hG hjW hvW htr1 hq
          rw [run_reduce hS hj, hsync] at htrue
          simp at htrue
        · have hsy : env.synthApiRaises = false := by
            by_contra hx
            simp only [Bool.not_eq_false] at hx
            rw [hx] at h4
            simp at h4
          have hst : env.synthTmp ≠ "" := by
            intro hx
            rw [hsy, hx] at h4
            simp [truthy] at h4
          by_cases hm : env.muxFfmpeg = some 0
          · have hinner := @inner_success env jobId v.file_path l env.extractTmp
              (extract_audio env v.file_path
                (pushEvent (Event.stageStart 1) (startWorld env job w₀))).2 t u h2 h3 hsy hst hm
            have hq : (inner_stages env jobId v.file_path
                (lookupLanguage (startWorld env job w₀).store.languages
                  (markProcessing job env.now).target_language_id) env.extractTmp
                (extract_audio env v.file_path
                  (pushEvent (Event.stageStart 1) (startWorld env job w₀))).2).1 =
                Except.ok true := by rw [hlW, hinner]
            have hsync := sync_inner_ok hG hjW hvW htr1 hq
            have hne : ("outputs/" ++ output_filename v.file_path l.code env.muxTimestamp) ≠
                env.extractTmp := fun hx => hout _ hx.symm
            rw [run_reduce hS hj, hsync]
            show _ ∈ (cleanupW _ _).disk
            rw [hlW, hinner]
            rw [mem_cleanupW_of_ne hne]
            simp only [update_job_success_disk]
            exact mem_createFileW_self _ _
          · have hinner := @inner_mux_fail env jobId v.file_path l env.extractTmp
              (extract_audio env v.file_path
                (pushEvent (Event.stageStart 1) (startWorld env job w₀))).2 t u h2 h3 hsy hst hm
            have hq : (inner_stages env jobId v.file_path
                (lookupLanguage (startWorld env job w₀).store.languages
                  (markProcessing job env.now).target_language_id) env.extractTmp
                (extract_audio env v.file_path
                  (pushEvent (Event.stageStart 1) (startWorld env job w₀))).2).1 =
                Except.ok false := by rw [hlW, hinner]
            have hsync := sync_inner_ok hG hjW hvW htr1 hq
            rw [run_reduce hS hj, hsync] at htrue
            simp at htrue

/-- Environment for the C3 counterexample: ffmpeg fails during extraction
after the temporary .wav has been created. -/
def envExtractFail : Env := { envOk with extractFfmpeg := some 1 }

/-- Counterexample for C3 as stated: with extraction failing, the job
reaches the terminal FAILED state while the temporary extraction artifact
is still on disk. -/
theorem claim_cleanup_cex :
    (lookupJob (process_dubbing_job envExtractFail 1 worldFix).2.store.jobs 1).map
      DubbingJob.status = some DubbingStatus.failed ∧
    "tmp1.wav" ∈ (process_dubbing_job envExtractFail 1 worldFix).2.disk := by
  constructor
  · decide
  · decide

/-- Witness for C3: on a fully successful concrete run the extraction
artifact is gone from disk. -/
theorem claim_cleanup_witness :
    "tmp1.wav" ∉ (process_dubbing_job envOk 1 worldFix).2.disk :=
  (claim_cleanup envOk 1 worldFix jobFix videoFix rfl rfl (by decide) (by decide) rfl
    (by decide) (by decide)
    (by
      intro s hs
      have hs2 : ("tmp1.wav" : String) = "outputs/" ++ s := hs
      have h2 := congrArg String.data hs2
      rw [String.data_append] at h2
      have e1 : ("tmp1.wav" : String).data = 't' :: ("mp1.wav" : String).data := rfl
      have e2 : ("outputs/" : String).data = 'o' :: ("utputs/" : String).data := rfl
      rw [e1, e2, List.cons_append] at h2
      injection h2 with hc _
      cases hc)).1

/-! Path lemmas for the output naming rule. -/

theorem revSplitLast_none_notmem {c : Char} :
    ∀ {l : List Char}, revSplitLast c l = none → c ∉ l := by
  intro l
  induction l with
  | nil =>
    intro _
    simp
  | cons a rest ih =>
    intro h hm
    unfold revSplitLast at h
    by_cases ha : a = c
    · rw [if_pos ha] at h
      cases h
    · rw [if_neg ha] at h
      cases hr : revSplitLast c rest with
      | some q =>
        rw [hr] at h
        cases h
      | none =>
        rcases List.mem_cons.mp hm with h1 | h2
        · exact ha h1.symm
        · exact ih hr h2

theorem revSplitLast_eq {c : Char} :
    ∀ {l x y : List Char}, revSplitLast c l = some (x, y) → l = x ++ c :: y ∧ c ∉ x := by
  intro l
  induction l with
  | nil =>
    intro x y h
    cases h
  | cons a rest ih =>
    intro x y h
    unfold revSplitLast at h
    by_cases ha : a = c
    · rw [if_pos ha] at h
      injection h with h1
      injection h1 with hx hy
      subst hx
      subst hy
      subst ha
      exact ⟨rfl, by simp⟩
    · rw [if_neg ha] at h
      cases hr : revSplitLast c rest with
      | none =>
        rw [hr] at h
        cases h
      | some q =>
        rw [hr] at h
        injection h with h1
        injection h1 with hx hy
        subst hx
        subst hy
        obtain ⟨hq, hcq⟩ := ih hr
        refine ⟨?_, ?_⟩
        · rw [List.cons_append, ← hq]
        · intro hm
          rcases List.mem_cons.mp hm with h1 | h2
          · exact ha h1.symm
          · exact hcq h2

theorem revSplitLast_append {c : Char} :
    ∀ (x y : List Char), c ∉ x → revSplitLast c (x ++ c :: y) = some (x, y) := by
  intro x
  induction x with
  | nil =>
    intro y _
    unfold revSplitLast
    simp
  | cons a rest ih =>
    intro y hc
    have ha : ¬a = c := fun h => hc (by rw [h]; exact List.mem_cons_self c rest)
    show revSplitLast c (a :: (rest ++ c :: y)) = some (a :: rest, y)
    unfold revSplitLast
    rw [if_neg ha, ih y (fun hm => hc (List.mem_cons_of_mem a hm))]
    rfl

theorem pathName_no_slash (p : String) : '/' ∉ (pathName p).data := by
  unfold pathName
  cases hr : revSplitLast '/' p.toList.reverse with
  | none =>
    intro hm
    exact revSplitLast_none_notmem hr (List.mem_reverse.mpr hm)
  | some q =>
    intro hm
    exact (revSplitLast_eq hr).2 (List.mem_reverse.mp hm)

theorem pathStem_chars (p : String) (ch : Char) (h : ch ∈ (pathStem p).data) :
    ch ∈ (pathName p).data := by
  cases hr : revSplitLast '.' (pathName p).toList.reverse with
  | none =>
    have hps : pathStem p = pathName p := by
      simp only [pathStem]
      rw [hr]
    rw [hps] at h
    exact h
  | some q =>
    by_cases hq : q.2 = [] ∨ q.1 = []
    · have hps : pathStem p = pathName p := by
        simp only [pathStem]
        rw [hr]
        exact if_pos hq
      rw [hps] at h
      exact h
    · have hps : pathStem p = String.mk q.2.reverse := by
        simp only [pathStem]
        rw [hr]
        exact if_neg hq
      rw [hps] at h
      have h1 := (revSplitLast_eq hr).1
      have h2 : ch ∈ (pathName p).toList.reverse := by
        rw [h1]
        exact List.mem_append.mpr (Or.inr (List.mem_cons_of_mem _ (List.mem_reverse.mp h)))
      exact List.mem_reverse.mp h2

theorem pathName_concat (d n : String) (h : '/' ∉ n.data) :
    pathName (d ++ "/" ++ n) = n := by
  unfold pathName
  have hd : (d ++ "/" ++ n).toList.reverse = n.data.reverse ++ '/' :: d.data.reverse := by
    show (d ++ "/" ++ n).data.reverse = _
    rw [String.data_append, String.data_append, List.reverse_append, List.reverse_append]
    simp
  rw [hd, revSplitLast_append _ _ (fun hm => h (List.mem_reverse.mp hm))]
  show String.mk n.data.reverse.reverse = n
  rw [List.reverse_reverse]

/-- The success write on a present row installs the marked record. -/
theorem final_success {env : Env} {jobId : Nat} {w : World} {j : DubbingJob}
    (outputPath : String)
    (hSW : env.successWriteRaises = false)
    (hjw : lookupJob w.store.jobs jobId = some j) :
    ∃ sz, lookupJob (update_job_success env jobId outputPath w).store.jobs jobId =
      some (markSuccess j outputPath sz env.now) := by
  unfold update_job_success
  simp only [hSW, Bool.false_eq_true, if_false, hjw]
  refine ⟨if outputPath ∈ w.disk then env.statSize else 0, ?_⟩
  simp only [pushEvent_store]
  exact lookupJob_writeJob_of_found _ hjw (markSuccess_id j outputPath _ env.now)

/-- C4 (amended): on a fully successful run the recorded output filename
is the stem of the video's STORED file path (which save_video sets to
video_<uploadTimestamp><ext>, not the original upload name), followed by
_dubbed_, the target language code, an underscore, the generation
timestamp and .mp4; the recorded path prepends the outputs directory. -/
theorem claim_output_name (env : Env) (jobId : Nat) (w₀ : World)
    (job : DubbingJob) (v : Video) (l : Language) (t u : String)
    (hS : env.startWriteFault = none) (hG : env.syncGetFault = none)
    (hSW : env.successWriteRaises = false)
    (hj : lookupJob w₀.store.jobs jobId = some job)
    (hv : lookupVideo w₀.store.videos job.source_video_id = some v)
    (hl : lookupLanguage w₀.store.languages job.target_language_id = some l)
    (hff : env.extractFfmpeg = some 0) (htm : env.extractTmp ≠ "")
    (htA : env.transcribeApi = some t) (ht : t ≠ "")
    (htU : env.translateApi = some (some u)) (hu : u ≠ "")
    (hsy : env.synthApiRaises = false) (hst : env.synthTmp ≠ "")
    (hm : env.muxFfmpeg = some 0)
    (hcode : '/' ∉ l.code.data) (hts : '/' ∉ env.muxTimestamp.data) :
    (process_dubbing_job env jobId w₀).1 = Except.ok true ∧
    ∃ j', lookupJob (process_dubbing_job env jobId w₀).2.store.jobs jobId = some j' ∧
      j'.status = DubbingStatus.completed ∧
      j'.output_filename = some (output_filename v.file_path l.code env.muxTimestamp) ∧
      j'.output_file_path =
        some ("outputs/" ++ output_filename v.file_path l.code env.muxTimestamp) := by
  have hjW : lookupJob (startWorld env job w₀).store.jobs jobId =
      some (markProcessing job env.now) := lookupJob_startWorld hj
  have hvW : lookupVideo (startWorld env job w₀).store.videos
      (markProcessing job env.now).source_video_id = some v := by simpa using hv
  have hlW : lookupLanguage (startWorld env job w₀).store.languages
      (markProcessing job env.now).target_language_id = some l := by simpa using hl
  have htr1 : truthy (extract_audio env v.file_path
      (pushEvent (Event.stageStart 1) (startWorld env job w₀))).1 = some env.extractTmp := by
    rw [extract_audio_eq]
    simp [hff, truthy_some, htm]
  have hpw : (extract_audio env v.file_path
      (pushEvent (Event.stageStart 1) (startWorld env job w₀))).2 =
      createFileW env.extractTmp (pushEvent (Event.stageStart 1) (startWorld env job w₀)) := by
    rw [extract_audio_eq]
  have hmem : env.extractTmp ∈ (extract_audio env v.file_path
      (pushEvent (Event.stageStart 1) (startWorld env job w₀))).2.disk := by
    rw [hpw]
    exact mem_createFileW_self _ _
  have h2s : truthy (transcribe_audio env env.extractTmp
      (extract_audio env v.file_path
        (pushEvent (Event.stageStart 1) (startWorld env job w₀))).2.disk) = some t := by
    rw [transcribe_audio_mem hmem, htA]
    simp [truthy_some, ht]
  have h3s : truthy (translate_text env t l.code) = some u := by
    rw [translate_text_eq, htU]
    simp [truthy_some, hu]
  have hinner := @inner_success env jobId v.file_path l env.extractTmp
    (extract_audio env v.file_path
      (pushEvent (Event.stageStart 1) (startWorld env job w₀))).2 t u h2s h3s hsy hst hm
  have hq : (inner_stages env jobId v.file_path
      (lookupLanguage (startWorld env job w₀).store.languages
        (markProcessing job env.now).target_language_id) env.extractTmp
      (extract_audio env v.file_path
        (pushEvent (Event.stageStart 1) (startWorld env job w₀))).2).1 =
      Except.ok true := by
    rw [hlW, hinner]
  have hsync := sync_inner_ok hG hjW hvW htr1 hq
  have hrun : process_dubbing_job env jobId w₀ =
      (Except.ok true, cleanupW env.extractTmp (inner_stages env jobId v.file_path
        (lookupLanguage (startWorld env job w₀).store.languages
          (markProcessing job env.now).target_language_id) env.extractTmp
        (extract_audio env v.file_path
          (pushEvent (Event.stageStart 1) (startWorld env job w₀))).2).2) := by
    rw [run_reduce hS hj, hsync]
  have hjpM : lookupJob (createFileW
      ("outputs/" ++ output_filename v.file_path l.code env.muxTimestamp)
      (pushEvent (Event.stageStart 5) (createFileW env.synthTmp
        (pushEvent (Event.stageStart 4) (pushEvent (Event.stageStart 3)
          (pushEvent (Event.stageStart 2)
            (extract_audio env v.file_path
              (pushEvent (Event.stageStart 1)
                (startWorld env job w₀))).2)))))).store.jobs jobId =
      some (markProcessing job env.now) := by
    rw [hpw]
    simpa using hjW
  obtain ⟨sz, hlook⟩ := final_success
    ("outputs/" ++ output_filename v.file_path l.code env.muxTimestamp) hSW hjpM
  have hslash : '/' ∉ (output_filename v.file_path l.code env.muxTimestamp).data := by
    unfold output_filename
    intro hm2
    simp only [String.data_append] at hm2
    simp only [List.mem_append] at hm2
    rcases hm2 with (((((h | h) | h) | h) | h) | h)
    · exact pathName_no_slash v.file_path (pathStem_chars v.file_path '/' h)
    · exact absurd h (by decide)
    · exact hcode h
    · exact absurd h (by decide)
    · exact hts h
    · exact absurd h (by decide)
  have hpn : pathName ("outputs/" ++ output_filename v.file_path l.code env.muxTimestamp) =
      output_filename v.file_path l.code env.muxTimestamp := by
    rw [show ("outputs/" : String) = "outputs" ++ "/" by rfl]
    exact pathName_concat "outputs" _ hslash
  refine ⟨by rw [hrun], ?_⟩
  refine ⟨markSuccess (markProcessing job env.now)
    ("outputs/" ++ output_filename v.file_path l.code env.muxTimestamp) sz env.now, ?_, rfl, ?_, rfl⟩
  · rw [hrun]
    show lookupJob (cleanupW _ _).store.jobs jobId = _
    rw [hlW, hinner]
    simp only [cleanupW_store]
    exact hlook
  · show some (pathName _) = _
    rw [hpn]

/-- Upload fixture for the C4 counterexample: clip.mp4 stored by save_video
under the timestamped name. -/
def clipVideo : Video := save_video "20240101_120000" 5 "clip.mp4" "video/mp4" 1 1 0 none

/-- World for scenario A: one pending job for clipVideo targeting Spanish. -/
def clipWorld : World :=
  { store := { jobs := [newJob 1 2 1 0], videos := [clipVideo], languages := [langEn, langEs] },
    disk := [], events := [] }

/-- Counterexample for C4 as stated: uploading clip.mp4 and running a fully
successful dub to Spanish yields output filename
video_20240101_120000_dubbed_es_TS2.mp4, which never matches the claimed
clip_dubbed_es_timestamp.mp4 pattern. -/
theorem claim_output_name_cex :
    (lookupJob (process_dubbing_job envOk 1 clipWorld).2.store.jobs 1).map
      DubbingJob.status = some DubbingStatus.completed ∧
    (lookupJob (process_dubbing_job envOk 1 clipWorld).2.store.jobs 1).map
      DubbingJob.output_filename =
      some (some "video_20240101_120000_dubbed_es_TS2.mp4") ∧
    (∀ ts : String, "video_20240101_120000_dubbed_es_TS2.mp4" ≠
      "clip_dubbed_es_" ++ ts ++ ".mp4") := by
  refine ⟨by decide, by decide, ?_⟩
  intro ts h
  have h2 := congrArg String.data h
  rw [String.data_append, String.data_append] at h2
  have e1 : ("video_20240101_120000_dubbed_es_TS2.mp4" : String).data =
      'v' :: ("ideo_20240101_120000_dubbed_es_TS2.mp4" : String).data := rfl
  have e2 : ("clip_dubbed_es_" : String).data = 'c' :: ("lip_dubbed_es_" : String).data := rfl
  rw [e1, e2] at h2
  simp only [List.cons_append] at h2
  injection h2 with hc _
  cases hc

/-- Witness for C4 at the concrete scenario A fixtures. -/
theorem claim_output_name_witness :
    (process_dubbing_job envOk 1 clipWorld).1 = Except.ok true ∧
    ∃ j', lookupJob (process_dubbing_job envOk 1 clipWorld).2.store.jobs 1 = some j' ∧
      j'.status = DubbingStatus.completed ∧
      j'.output_filename =
        some (output_filename clipVideo.file_path langEs.code envOk.muxTimestamp) ∧
      j'.output_file_path =
        some ("outputs/" ++ output_filename clipVideo.file_path langEs.code envOk.muxTimestamp) :=
  claim_output_name envOk 1 clipWorld (newJob 1 2 1 0) clipVideo langEs "hello" "hola"
    rfl rfl rfl (by decide) (by decide) (by decide) rfl (by decide) rfl (by decide) rfl
    (by decide) rfl (by decide) rfl (by decide) (by decide)

end Dubbing
